import Mathlib

/-!
# Voice banking front end: `app.js` and `translations.js`

A shallow embedding of the voice-query dispatch pipeline of the banking demo
site, and theorems about it.

Conventions of the embedding.

* The free-standing variables of `app.js` (`isRecording`, `isAuthenticated`,
  `currentUser`, `voiceBotVisible`), `currentLanguage` of `translations.js`,
  `sessionStorage`, and the parts of the page the scripts read back or that
  carry results (chat area, status line, balance, transaction list, speech
  queue) form one record, `AppState`.
* A function of the scripts is a function `AppState → Except JSError α × AppState`:
  a thrown error keeps every write made before the throw, as in JavaScript.
* Data that comes from `JSON.parse` or from object literals is a `JSON` value;
  a possibly missing property is an `Option JSON`, `none` standing for
  `undefined`.
* Numbers are exact decimals (`JSNumber`).  The scripts do no arithmetic on
  them: they test them for truthiness, store them and serialise them.
* Strings are texts of code points.  `JSON.parse` accepts every escape of
  four hexadecimal digits; an escaped surrogate without its partner, which a
  text of code points cannot hold, is read as U+FFFD.
* Page elements that the scripts dereference without a test are taken to
  exist.  Elements the scripts test for (`accountBalance`, `transactionsList`,
  `.account-number`) have a presence flag.
  Writes that only toggle layout (classes, `display`) have no reader in the
  scripts and are left out.
* `processVoiceQuery` is run as one step for a given gateway outcome: no other
  handler is interleaved at its two suspension points.
-/

namespace NextGenBanking

/-! ## Values -/

/-- A number with a finite decimal expansion: `mantissa / 10 ^ scale`. -/
structure JSNumber where
  mantissa : Int
  scale : Nat
  deriving DecidableEq, Repr

/-- Data as produced by `JSON.parse` and by the object literals of the scripts. -/
inductive JSON where
  | null
  | bool (b : Bool)
  | num (n : JSNumber)
  | str (s : String)
  | arr (items : List JSON)
  | obj (fields : List (String × JSON))
  deriving Repr

/-- Errors a script can raise. -/
inductive JSError where
  | typeError
  | syntaxError
  | networkError
  | error (message : String)
  deriving DecidableEq, Repr

/-! ## Strings -/

/-- Lower case of one character, as `String.prototype.toLowerCase` maps it.
ASCII capitals map to their small letters.  Outside ASCII, the two code points
whose lower case contains an ASCII letter are mapped (U+0130 to `i` followed by
U+0307, U+212A to `k`); any other code point is kept, its JavaScript lower case
being non-ASCII as well. -/
def toLowerChar (c : Char) : List Char :=
  if c = Char.ofNat 0x130 then ['i', Char.ofNat 0x307]
  else if c = Char.ofNat 0x212A then ['k']
  else [c.toLower]

/-- Lower-case a list of characters. -/
def toLowerChars : List Char → List Char
  | [] => []
  | c :: cs => toLowerChar c ++ toLowerChars cs

/-- The method `String.prototype.toLowerCase`. -/
def toLowerCase (s : String) : String := ⟨toLowerChars s.data⟩

/-- Substring search on character lists: does `p` occur in the list? -/
def includesChars : List Char → List Char → Bool
  | [], p => p.isEmpty
  | c :: cs, p => p.isPrefixOf (c :: cs) || includesChars cs p

/-- The method `String.prototype.includes`. -/
def includes (s sub : String) : Bool := includesChars s.data sub.data

/-! ## JavaScript semantics of JSON values -/

/-- Truthiness (`if (v)`); `none` is `undefined`. -/
def truthy : Option JSON → Bool
  | none => false
  | some .null => false
  | some (.bool b) => b
  | some (.num n) => n.mantissa ≠ 0
  | some (.str s) => s ≠ ""
  | some (.arr _) => true
  | some (.obj _) => true

/-- Own property lookup in a field list. -/
def lookupField (key : String) : List (String × JSON) → Option JSON
  | [] => none
  | (k, v) :: rest => if k = key then some v else lookupField key rest

/-- Property read `v.key`, for a key that no built-in prototype defines
(`response`, `balance`, `user_id`, `type`, ...).  Reading a property of
`undefined` or `null` raises a TypeError; a primitive or an array has no such
property. -/
def getProp (v : Option JSON) (key : String) : Except JSError (Option JSON) :=
  match v with
  | none => .error .typeError
  | some .null => .error .typeError
  | some (.obj fields) => .ok (lookupField key fields)
  | some _ => .ok none

/-- Replace the value of `key` in place, or append the field. -/
def setField (key : String) (v : JSON) : List (String × JSON) → List (String × JSON)
  | [] => [(key, v)]
  | (k, w) :: rest => if k = key then (k, v) :: rest else (k, w) :: setField key v rest

/-- Property write `target.key = v`.  On an object it replaces or appends the
field.  On a primitive it is ignored (the scripts are not in strict mode).  On
an array it would add a property outside the elements, which no script reads
back and which `JSON.stringify` skips. -/
def setProp (target : JSON) (key : String) (v : JSON) : JSON :=
  match target with
  | .obj fields => .obj (setField key v fields)
  | other => other

/-- Remove the field `key`. -/
def deleteField (key : String) : List (String × JSON) → List (String × JSON)
  | [] => []
  | (k, w) :: rest => if k = key then deleteField key rest else (k, w) :: deleteField key rest

/-- The statement `delete target.key`. -/
def deleteProp (target : JSON) (key : String) : JSON :=
  match target with
  | .obj fields => .obj (deleteField key fields)
  | other => other

/-- Decimal digits of a natural number. -/
def natToString (n : Nat) : String := Nat.repr n

/-- Insert the decimal point `scale` digits from the right of a digit list,
padding with zeros on the left. -/
def placePoint (digits : List Char) (scale : Nat) : List Char :=
  if scale = 0 then digits
  else
    let padded := List.replicate (scale + 1 - digits.length) '0' ++ digits
    padded.take (padded.length - scale) ++ ['.'] ++ padded.drop (padded.length - scale)

/-- Decimal text of a number, as `JSON.stringify` and string conversion print
it (plain notation; the exponent notation JavaScript uses from 1e21 on and
below 1e-6 is not produced). -/
def numberToString (n : JSNumber) : String :=
  let body : String := ⟨placePoint (natToString n.mantissa.natAbs).data n.scale⟩
  if n.mantissa < 0 then "-" ++ body else body

mutual
/-- String conversion of a value (in a template literal); `none` when the
conversion raises a TypeError, which for parsed data happens exactly when an
object carries an own `toString` field (it is data, so it cannot be called). -/
def toStringJS : JSON → Option String
  | .null => some "null"
  | .bool b => some (if b then "true" else "false")
  | .num n => some (numberToString n)
  | .str s => some s
  | .arr items => joinJS items
  | .obj fields => if (lookupField "toString" fields).isSome then none else some "[object Object]"
/-- The join with commas that `Array.prototype.toString` performs; `null`
elements print as the empty string. -/
def joinJS : List JSON → Option String
  | [] => some ""
  | [.null] => some ""
  | [v] => toStringJS v
  | .null :: rest => (joinJS rest).map fun r => "," ++ r
  | v :: rest =>
    match toStringJS v, joinJS rest with
    | some a, some r => some (a ++ "," ++ r)
    | _, _ => none
end

mutual
/-- Does `v.toLocaleString(...)` return normally?  It raises a TypeError on
`null`, on an object with an own `toLocaleString` or `toString` field, and on
an array with such an element. -/
def toLocaleStringOk : JSON → Bool
  | .null => false
  | .bool _ => true
  | .num _ => true
  | .str _ => true
  | .arr items => allLocaleOk items
  | .obj fields =>
    !(lookupField "toLocaleString" fields).isSome && !(lookupField "toString" fields).isSome
/-- Elements of an array: `null` elements are skipped by
`Array.prototype.toLocaleString`. -/
def allLocaleOk : List JSON → Bool
  | [] => true
  | .null :: rest => allLocaleOk rest
  | v :: rest => toLocaleStringOk v && allLocaleOk rest
end

/-! ## JSON text -/

/-- Escape one character inside a JSON string literal, as `JSON.stringify`
does: the quote, the backslash and the control characters. -/
def escapeChar (c : Char) : List Char :=
  if c = Char.ofNat 34 then [Char.ofNat 92, Char.ofNat 34]
  else if c = Char.ofNat 92 then [Char.ofNat 92, Char.ofNat 92]
  else if c = Char.ofNat 8 then [Char.ofNat 92, 'b']
  else if c = Char.ofNat 9 then [Char.ofNat 92, 't']
  else if c = Char.ofNat 10 then [Char.ofNat 92, 'n']
  else if c = Char.ofNat 12 then [Char.ofNat 92, 'f']
  else if c = Char.ofNat 13 then [Char.ofNat 92, 'r']
  else if c.toNat < 32 then
    [Char.ofNat 92, 'u', '0', '0', Nat.digitChar (c.toNat / 16), Nat.digitChar (c.toNat % 16)]
  else [c]

/-- Escape the characters of a string. -/
def escapeChars : List Char → List Char
  | [] => []
  | c :: cs => escapeChar c ++ escapeChars cs

/-- A string as a quoted JSON literal. -/
def quoteString (s : String) : String :=
  ⟨[Char.ofNat 34] ++ escapeChars s.data ++ [Char.ofNat 34]⟩

namespace JSON

mutual
/-- The function `JSON.stringify` on data (no indentation). -/
def stringify : JSON → String
  | .null => "null"
  | .bool b => if b then "true" else "false"
  | .num n => numberToString n
  | .str s => quoteString s
  | .arr items => "[" ++ stringifyItems items ++ "]"
  | .obj fields => "\x7b" ++ stringifyFields fields ++ "\x7d"
/-- Elements of an array, separated by commas. -/
def stringifyItems : List JSON → String
  | [] => ""
  | [v] => stringify v
  | v :: rest => stringify v ++ "," ++ stringifyItems rest
/-- Fields of an object, separated by commas. -/
def stringifyFields : List (String × JSON) → String
  | [] => ""
  | [(k, v)] => quoteString k ++ ":" ++ stringify v
  | (k, v) :: rest => quoteString k ++ ":" ++ stringify v ++ "," ++ stringifyFields rest
end

end JSON

namespace JSON

/-- JSON white space. -/
def isSpace (c : Char) : Bool := c = ' ' || c = '\t' || c = '\n' || c = '\r'

/-- Drop leading white space. -/
def skipSpace : List Char → List Char
  | [] => []
  | c :: cs => if isSpace c then skipSpace cs else c :: cs

/-- Read a maximal run of decimal digits: its value on top of `acc`, the
number of digits read on top of `count`, and the rest of the input. -/
def readDigits : List Char → Nat → Nat → Nat × Nat × List Char
  | [], acc, count => (acc, count, [])
  | c :: cs, acc, count =>
    if c.isDigit then readDigits cs (acc * 10 + (c.toNat - 48)) (count + 1)
    else (acc, count, c :: cs)

/-- Strip trailing zeros of the fraction, so that equal numbers are equal
values: the result has scale 0 or a mantissa not divisible by 10. -/
def normalize : Int → Nat → JSNumber
  | m, 0 => ⟨m, 0⟩
  | m, scale + 1 => if m % 10 = 0 then normalize (m / 10) scale else ⟨m, scale + 1⟩

/-- Read the optional fraction of a number. -/
def readFraction : List Char → Option (Nat × Nat × List Char)
  | '.' :: cs =>
    match readDigits cs 0 0 with
    | (_, 0, _) => none
    | (value, count, rest) => some (value, count, rest)
  | cs => some (0, 0, cs)

/-- Read the digits of an exponent. -/
def readExponentDigits (negative : Bool) (cs : List Char) : Option (Int × List Char) :=
  match readDigits cs 0 0 with
  | (_, 0, _) => none
  | (value, _, rest) => some (if negative then -(value : Int) else (value : Int), rest)

/-- Read the optional exponent of a number. -/
def readExponent : List Char → Option (Int × List Char)
  | 'e' :: '-' :: cs => readExponentDigits true cs
  | 'e' :: '+' :: cs => readExponentDigits false cs
  | 'e' :: cs => readExponentDigits false cs
  | 'E' :: '-' :: cs => readExponentDigits true cs
  | 'E' :: '+' :: cs => readExponentDigits false cs
  | 'E' :: cs => readExponentDigits false cs
  | cs => some (0, cs)

/-- Read the digits, fraction and exponent of a number whose sign has been read. -/
def parseUnsigned (negative : Bool) (cs : List Char) : Option (JSNumber × List Char) :=
  match readDigits cs 0 0 with
  | (_, 0, _) => none
  | (whole, count, rest) =>
    -- a whole part of several digits does not start with 0
    if count > 1 && cs.head? = some '0' then none
    else
      match readFraction rest with
      | none => none
      | some (fraction, places, rest1) =>
        match readExponent rest1 with
        | none => none
        | some (exponent, rest2) =>
          let digits : Int := ((whole * 10 ^ places + fraction : Nat) : Int)
          let signed : Int := if negative then -digits else digits
          let shift : Int := exponent - (places : Int)
          if 0 ≤ shift then some (⟨signed * 10 ^ shift.toNat, 0⟩, rest2)
          else some (normalize signed (-shift).toNat, rest2)

/-- Read a number. -/
def parseNumber : List Char → Option (JSNumber × List Char)
  | '-' :: cs => parseUnsigned true cs
  | cs => parseUnsigned false cs

/-- Value of a hexadecimal digit. -/
def hexValue (c : Char) : Option Nat :=
  if c.isDigit then some (c.toNat - 48)
  else if 'a'.toNat ≤ c.toNat ∧ c.toNat ≤ 'f'.toNat then some (c.toNat - 87)
  else if 'A'.toNat ≤ c.toNat ∧ c.toNat ≤ 'F'.toNat then some (c.toNat - 55)
  else none

/-- Value of four hexadecimal digits. -/
def hex4 (a b c d : Char) : Option Nat :=
  match hexValue a, hexValue b, hexValue c, hexValue d with
  | some w, some x, some y, some z => some (((w * 16 + x) * 16 + y) * 16 + z)
  | _, _, _, _ => none

/-- The character a one-letter escape stands for. -/
def unescape (c : Char) : Option Char :=
  if c = '"' then some '"'
  else if c = '\\' then some '\\'
  else if c = '/' then some '/'
  else if c = 'b' then some (Char.ofNat 8)
  else if c = 'f' then some (Char.ofNat 12)
  else if c = 'n' then some '\n'
  else if c = 'r' then some '\r'
  else if c = 't' then some '\t'
  else none

/-- The character of an escaped surrogate that comes without its partner.
JavaScript keeps it as a lone code unit of the string; a text of code points
cannot hold one, so it is read as U+FFFD.  The literal is accepted either
way. -/
def loneSurrogate : Char := Char.ofNat 0xFFFD

/-- Read the characters of a string literal up to its closing quote; `acc`
holds the characters read so far, last first.  Every escape of four
hexadecimal digits is accepted, as `JSON.parse` accepts it: an escaped
surrogate pair is one character, an escaped surrogate without its partner is
`loneSurrogate`. -/
def parseStringChars : Nat → List Char → List Char → Option (String × List Char)
  | 0, _, _ => none
  | fuel + 1, cs, acc =>
    match cs with
    | [] => none
    | '"' :: rest => some (⟨acc.reverse⟩, rest)
    | '\\' :: 'u' :: a :: b :: c :: d :: rest =>
      match hex4 a b c d with
      | none => none
      | some code =>
        if 0xD800 ≤ code ∧ code < 0xDC00 then
          match rest with
          | '\\' :: 'u' :: e :: f :: g :: h :: rest1 =>
            match hex4 e f g h with
            | some low =>
              if 0xDC00 ≤ low ∧ low < 0xE000 then
                parseStringChars fuel rest1
                  (Char.ofNat (0x10000 + (code - 0xD800) * 0x400 + (low - 0xDC00)) :: acc)
              else parseStringChars fuel rest (loneSurrogate :: acc)
            | none => parseStringChars fuel rest (loneSurrogate :: acc)
          | _ => parseStringChars fuel rest (loneSurrogate :: acc)
        else if 0xDC00 ≤ code ∧ code < 0xE000 then
          parseStringChars fuel rest (loneSurrogate :: acc)
        else parseStringChars fuel rest (Char.ofNat code :: acc)
    | '\\' :: e :: rest =>
      match unescape e with
      | some c => parseStringChars fuel rest (c :: acc)
      | none => none
    | c :: rest => if c.toNat < 32 then none else parseStringChars fuel rest (c :: acc)

/-- Read a string literal whose opening quote has been read. -/
def parseString (cs : List Char) : Option (String × List Char) :=
  parseStringChars (cs.length + 1) cs []

/-- Build an object from the fields in reading order: a repeated key keeps its
first place and takes its last value. -/
def objectOf (fields : List (String × JSON)) : JSON :=
  .obj (fields.foldl (fun acc field => setField field.1 field.2 acc) [])

mutual
/-- Read one value. -/
def parseValue : Nat → List Char → Option (JSON × List Char)
  | 0, _ => none
  | fuel + 1, cs =>
    match skipSpace cs with
    | 'n' :: 'u' :: 'l' :: 'l' :: rest => some (.null, rest)
    | 't' :: 'r' :: 'u' :: 'e' :: rest => some (.bool true, rest)
    | 'f' :: 'a' :: 'l' :: 's' :: 'e' :: rest => some (.bool false, rest)
    | '"' :: rest =>
      match parseString rest with
      | some (text, rest1) => some (.str text, rest1)
      | none => none
    | '[' :: rest =>
      match skipSpace rest with
      | ']' :: rest1 => some (.arr [], rest1)
      | _ =>
        match parseItems fuel rest with
        | some (items, rest1) => some (.arr items, rest1)
        | none => none
    | '{' :: rest =>
      match skipSpace rest with
      | '}' :: rest1 => some (.obj [], rest1)
      | _ =>
        match parseFields fuel rest with
        | some (fields, rest1) => some (objectOf fields, rest1)
        | none => none
    | other =>
      match parseNumber other with
      | some (n, rest) => some (.num n, rest)
      | none => none
/-- Read the elements of a non-empty array up to its closing bracket. -/
def parseItems : Nat → List Char → Option (List JSON × List Char)
  | 0, _ => none
  | fuel + 1, cs =>
    match parseValue fuel cs with
    | none => none
    | some (v, rest) =>
      match skipSpace rest with
      | ',' :: rest1 =>
        match parseItems fuel rest1 with
        | some (items, rest2) => some (v :: items, rest2)
        | none => none
      | ']' :: rest1 => some ([v], rest1)
      | _ => none
/-- Read the fields of a non-empty object up to its closing brace. -/
def parseFields : Nat → List Char → Option (List (String × JSON) × List Char)
  | 0, _ => none
  | fuel + 1, cs =>
    match skipSpace cs with
    | '"' :: rest =>
      match parseString rest with
      | none => none
      | some (key, rest1) =>
        match skipSpace rest1 with
        | ':' :: rest2 =>
          match parseValue fuel rest2 with
          | none => none
          | some (v, rest3) =>
            match skipSpace rest3 with
            | ',' :: rest4 =>
              match parseFields fuel rest4 with
              | some (fields, rest5) => some ((key, v) :: fields, rest5)
              | none => none
            | '}' :: rest4 => some ([(key, v)], rest4)
            | _ => none
        | _ => none
    | _ => none
end

/-- The function `JSON.parse`: one value, white space around it, nothing
else; any other text raises a SyntaxError.  The fuel is twice the length of
the text, more than the reader can use. -/
def parse (text : String) : Except JSError JSON :=
  match parseValue (2 * text.length + 2) text.data with
  | some (v, rest) => if (skipSpace rest).isEmpty then .ok v else .error .syntaxError
  | none => .error .syntaxError

end JSON

/-! ## State -/

/-- A key-value store (`sessionStorage`): keys and values are text. -/
abbrev Storage := List (String × String)

namespace Storage

/-- The method `getItem`; `none` is `null`. -/
def getItem (st : Storage) (key : String) : Option String :=
  match st with
  | [] => none
  | (k, v) :: rest => if k = key then some v else getItem rest key

/-- The method `setItem`. -/
def setItem (st : Storage) (key value : String) : Storage :=
  match st with
  | [] => [(key, value)]
  | (k, v) :: rest => if k = key then (k, value) :: rest else (k, v) :: setItem rest key value

/-- The method `removeItem`. -/
def removeItem (st : Storage) (key : String) : Storage :=
  match st with
  | [] => []
  | (k, v) :: rest => if k = key then removeItem rest key else (k, v) :: removeItem rest key

end Storage

/-- Who wrote a chat bubble. -/
inductive Role where
  | user
  | bot
  deriving DecidableEq, Repr

/-- One bubble appended to `chatContent`. -/
structure Message where
  role : Role
  text : String
  deriving DecidableEq, Repr

/-- A voice offered by `speechSynthesis.getVoices()`. -/
structure Voice where
  name : String
  lang : String
  deriving DecidableEq, Repr

/-- An utterance handed to `speechSynthesis.speak`; rate 1.0, pitch 0.9 and
volume 1.0 are the same for every utterance. -/
structure Utterance where
  text : String
  lang : String
  voice : Option Voice
  deriving DecidableEq, Repr

/-- Body of the request posted to `/api/voice-banking`. -/
structure VoiceRequest where
  user_input : String
  user_id : Option JSON
  thread_id : String
  language : String

/-- Calls that leave the scripts, in the order they are made. -/
inductive Effect where
  | speakText (text : JSON) (lang : String)
  | fetchVoiceBanking (body : VoiceRequest)
  | fetchTransactions (userId : String)
  | alert (message : String)

/-- State of the page and of the scripts. -/
structure AppState where
  /-- `let isRecording` -/
  isRecording : Bool
  /-- `let isAuthenticated` -/
  isAuthenticated : Bool
  /-- `let currentUser`; `JSON.null` is JavaScript `null` -/
  currentUser : JSON
  /-- `let voiceBotVisible` -/
  voiceBotVisible : Bool
  /-- whether `translations.js` is loaded, so that `getCurrentLanguage` is a function -/
  translationsLoaded : Bool
  /-- `let currentLanguage` of `translations.js` -/
  currentLanguage : String
  /-- contents of `sessionStorage` -/
  sessionStorage : Storage
  /-- text of the element `botStatus` -/
  botStatus : String
  /-- children of the element `chatContent` -/
  chat : List Message
  /-- whether the element `accountBalance` is on the page -/
  hasBalanceElement : Bool
  /-- the value last formatted into the element `accountBalance` -/
  shownBalance : Option JSON
  /-- whether an element of class `account-number` is on the page -/
  hasAccountNumberElement : Bool
  /-- whether the element `transactionsList` is on the page -/
  hasTransactionsList : Bool
  /-- the entries rendered into `transactionsList`, one per child -/
  shownTransactions : List JSON
  /-- whether `speechSynthesis` is in `window` -/
  speechSynthesis : Bool
  /-- what `speechSynthesis.getVoices()` returns -/
  voices : List Voice
  /-- utterances passed to `speechSynthesis.speak` -/
  spoken : List Utterance
  /-- whether `SpeechRecognition` or `webkitSpeechRecognition` is in `window` -/
  speechRecognition : Bool
  /-- recognitions that `toggleVoiceRecording` has started and whose `onend`
  handler has not run yet -/
  recognitionsInFlight : Nat
  /-- calls that leave the scripts -/
  trace : List Effect

/-- The state when the scripts have just been loaded on a page with every
element present, nothing stored, language `en`. -/
def initialState : AppState where
  isRecording := false
  isAuthenticated := false
  currentUser := .null
  voiceBotVisible := false
  translationsLoaded := true
  currentLanguage := "en"
  sessionStorage := []
  botStatus := "Ready to help"
  chat := []
  hasBalanceElement := true
  shownBalance := none
  hasAccountNumberElement := true
  hasTransactionsList := true
  shownTransactions := []
  speechSynthesis := true
  voices := []
  spoken := []
  speechRecognition := true
  recognitionsInFlight := 0
  trace := []

/-- A script function: it returns a value or raises, and leaves a state. -/
def JS (α : Type) : Type := AppState → Except JSError α × AppState

namespace JS

/-- Return a value. -/
def ret {α : Type} (a : α) : JS α := fun s => (.ok a, s)

/-- Raise an error. -/
def raise {α : Type} (e : JSError) : JS α := fun s => (.error e, s)

/-- Run `m`, then `f` on its value; an error raised by `m` ends the sequence. -/
def andThen {α β : Type} (m : JS α) (f : α → JS β) : JS β := fun s =>
  match m s with
  | (.ok a, s1) => f a s1
  | (.error e, s1) => (.error e, s1)

/-- The statement `try m catch (error) h`. -/
def tryCatch {α : Type} (m : JS α) (h : JSError → JS α) : JS α := fun s =>
  match m s with
  | (.ok a, s1) => (.ok a, s1)
  | (.error e, s1) => h e s1

/-- Lift a computation that may raise but does not touch the state. -/
def lift {α : Type} (r : Except JSError α) : JS α := fun s => (r, s)

/-- Read the state. -/
def get : JS AppState := fun s => (.ok s, s)

/-- Change the state. -/
def modify (f : AppState → AppState) : JS Unit := fun s => (.ok (), f s)

instance : Monad JS where
  pure := ret
  bind := andThen

end JS

/-! ## Chat area -/

/-- Function `addBotMessage` of `app.js`: the message is put into a template
literal, which converts it to a string, and the bubble is appended to
`chatContent`. -/
def addBotMessage (message : JSON) : JS Unit := fun s =>
  match toStringJS message with
  | none => (.error .typeError, s)
  | some text => (.ok (), { s with chat := s.chat ++ [⟨.bot, text⟩] })

/-- Function `addUserMessage` of `app.js`. -/
def addUserMessage (message : JSON) : JS Unit := fun s =>
  match toStringJS message with
  | none => (.error .typeError, s)
  | some text => (.ok (), { s with chat := s.chat ++ [⟨.user, text⟩] })

/-! ## Balance -/

/-- Function `updateAccountBalance` of `app.js`. -/
def updateAccountBalance (balance : JSON) : JS Unit := fun s =>
  -- if (balanceElement) balanceElement.textContent = ... balance.toLocaleString(...)
  if s.hasBalanceElement && !toLocaleStringOk balance then (.error .typeError, s)
  else
    let s1 : AppState := if s.hasBalanceElement then { s with shownBalance := some balance } else s
    -- if (currentUser) { currentUser.balance = balance; sessionStorage.setItem(...) }
    if truthy (some s1.currentUser) then
      let user := setProp s1.currentUser "balance" balance
      (.ok (), { s1 with
        currentUser := user
        sessionStorage := s1.sessionStorage.setItem "currentUser" (JSON.stringify user) })
    else (.ok (), s1)

/-! ## Local fallback responder -/

/-- The canned answer of the balance rule. -/
def balanceAnswer : String :=
  "Your current account balance is ₹15,750.50. Is there anything else I can help you with?"

/-- The canned answer of the transaction-or-history rule. -/
def transactionsAnswer : String :=
  "Here are your recent transactions: You spent ₹150 at a grocery store on Nov 20, received salary deposit of ₹3,000 on Nov 18, and spent ₹85.25 at a restaurant on Nov 15."

/-- The canned answer of the transfer rule. -/
def transferAnswer : String :=
  "To transfer funds, I'll need the recipient's account details and the amount. Please tell me the account number and amount you'd like to transfer."

/-- The canned answer of the loan rule. -/
def loanAnswer : String :=
  "Your current home loan balance is ₹1,20,000 at 3.5% interest rate. Your next EMI of ₹8,500 is due on December 5th."

/-- The canned answer of the credit rule. -/
def creditAnswer : String :=
  "Your credit card limit is ₹50,000 with ₹42,350 available credit. Would you like to know about recent transactions or payment due dates?"

/-- The default help sentence. -/
def defaultAnswer : String :=
  "I'm here to help you with balance inquiries, transactions, transfers, loans, and credit cards. What would you like to know?"

/-- The number literal `15750.50`. -/
def demoBalance : JSNumber := ⟨157505, 1⟩

/-- Function `getMockResponse` of `app.js`. -/
def getMockResponse (query : String) : JS String :=
  let lowerQuery := toLowerCase query
  if includes lowerQuery "balance" then do
    updateAccountBalance (.num demoBalance)
    return balanceAnswer
  else if includes lowerQuery "transaction" || includes lowerQuery "history" then
    return transactionsAnswer
  else if includes lowerQuery "transfer" then
    return transferAnswer
  else if includes lowerQuery "loan" then
    return loanAnswer
  else if includes lowerQuery "credit" then
    return creditAnswer
  else
    return defaultAnswer

/-! ## Speech output -/

/-- Does the lower-cased voice name contain one of the fragments? -/
def nameHasFragment (fragments : List String) (voice : Voice) : Bool :=
  fragments.any fun fragment => includes (toLowerCase voice.name) fragment

/-- The voice `speakText` picks among `voices` (the value of `maleVoice` after
the three branches on `lang`); `none` when it stays `null` or `undefined`. -/
def selectVoice (lang : String) (voices : List Voice) : Option Voice :=
  if lang = "hi" then
    match voices.find? (fun voice =>
        includes voice.lang "hi" && nameHasFragment ["male", "man", "ravi", "hemant"] voice) with
    | some voice => some voice
    | none => voices.find? fun voice => includes voice.lang "hi"
  else if lang = "gu" then
    match voices.find? (fun voice =>
        includes voice.lang "gu" && nameHasFragment ["male", "man"] voice) with
    | some voice => some voice
    | none => voices.find? fun voice => includes voice.lang "gu"
  else
    match voices.find? (fun voice =>
        includes voice.lang "en" &&
          nameHasFragment ["male", "david", "james", "george", "daniel"] voice) with
    | some voice => some voice
    | none => voices.find? fun voice => includes voice.lang "en-US" || includes voice.lang "en-GB"

/-- The language tag `speakText` puts on the utterance. -/
def utteranceLang (lang : String) : String :=
  if lang = "hi" then "hi-IN" else if lang = "gu" then "gu-IN" else "en-US"

/-- Function `speakText` of `app.js`; a call without a language passes `"en"`,
the default of the parameter.  The call itself is recorded in the trace. -/
def speakText (text : JSON) (lang : String) : JS Unit := fun s =>
  let s1 : AppState := { s with trace := s.trace ++ [Effect.speakText text lang] }
  if s1.speechSynthesis then
    match toStringJS text with
    | none => (.error .typeError, s1)
    | some spokenText =>
      let voice := if s1.voices.length > 0 then selectVoice lang s1.voices else none
      let utterance : Utterance := ⟨spokenText, utteranceLang lang, voice⟩
      (.ok (), { s1 with spoken := s1.spoken ++ [utterance] })
  else (.ok (), s1)

/-! ## Transaction list -/

/-- The test `transactions.length === 0` on a truthy value. -/
def lengthIsZero : JSON → Bool
  | .arr items => items.isEmpty
  | .str text => text.isEmpty
  | .obj fields =>
    match lookupField "length" fields with
    | some (.num n) => n.mantissa = 0
    | _ => false
  | _ => false

/-- Can the template of one entry be built?  It reads `txn.type`,
`txn.description` and `txn.date` into the text and calls
`txn.amount.toLocaleString`. -/
def renderable (txn : JSON) : Bool :=
  match getProp (some txn) "type", getProp (some txn) "description", getProp (some txn) "date",
      getProp (some txn) "amount" with
  | .ok type, .ok description, .ok date, .ok (some amount) =>
    (type.all fun v => (toStringJS v).isSome) &&
    (description.all fun v => (toStringJS v).isSome) &&
    (date.all fun v => (toStringJS v).isSome) &&
    toLocaleStringOk amount
  | _, _, _, _ => false

/-- The loop `transactions.forEach(txn => ...)`: every entry is appended to the
list as a child of its own, up to the first entry whose template raises. -/
def appendTransactions : List JSON → AppState → Except JSError Unit × AppState
  | [], s => (.ok (), s)
  | txn :: rest, s =>
    if renderable txn then
      appendTransactions rest { s with shownTransactions := s.shownTransactions ++ [txn] }
    else (.error .typeError, s)

/-- Function `updateTransactionHistory` of `app.js`; `none` is a call with
`undefined`. -/
def updateTransactionHistory (transactions : Option JSON) : JS Unit := fun s =>
  match transactions with
  | none => (.ok (), s)
  | some list =>
    -- if (!transactionsList || !transactions || transactions.length === 0) return;
    if !s.hasTransactionsList || !truthy (some list) || lengthIsZero list then (.ok (), s)
    else
      -- transactionsList.innerHTML = '';
      let s1 : AppState := { s with shownTransactions := [] }
      match list with
      | .arr items => appendTransactions items s1
      | _ => (.error .typeError, s1)

/-! ## Dispatch -/

/-- Function `getCurrentLanguage` of `translations.js`. -/
def getCurrentLanguage (s : AppState) : String := s.currentLanguage

/-- What the call of `fetch` in `processVoiceQuery` settles to. -/
inductive FetchOutcome where
  /-- the promise rejects (the gateway cannot be reached) -/
  | rejected
  /-- a response arrives; `ok` is `response.ok`, `json` is what
  `response.json()` resolves to, `none` when the body is not JSON -/
  | response (ok : Bool) (json : Option JSON)

/-- The statement `if (v) body(v)`. -/
def whenTruthy (v : Option JSON) (body : JSON → JS Unit) : JS Unit :=
  match v with
  | some value => if truthy (some value) then body value else pure ()
  | none => pure ()

/-- The statements of the `try` block of `processVoiceQuery` that follow
`const result = await response.json()`. -/
def processVoiceQueryApply (result : JSON) (currentLang : String) : JS Unit := do
  let response ← JS.lift (getProp (some result) "response")
  whenTruthy response fun responseText => do
    addBotMessage responseText
    let account_balance ← JS.lift (getProp (some result) "account_balance")
    whenTruthy account_balance updateAccountBalance
    let transaction_history ← JS.lift (getProp (some result) "transaction_history")
    whenTruthy transaction_history fun list => updateTransactionHistory (some list)
    speakText responseText currentLang
  JS.modify fun s1 => { s1 with botStatus := "Ready to help" }

/-- The statements of the `try` block of `processVoiceQuery` that follow the
call of `fetch`, for the outcome of that call. -/
def processVoiceQuerySettle (gateway : FetchOutcome) (currentLang : String) : JS Unit :=
  match gateway with
  | .rejected => JS.raise .networkError
  | .response ok json =>
    if !ok then JS.raise (.error "Backend API error")
    else
      match json with
      | none => JS.raise .syntaxError
      | some result => processVoiceQueryApply result currentLang

/-- The `try` block of `processVoiceQuery`. -/
def processVoiceQueryTry (query : String) (now : Nat) (gateway : FetchOutcome) : JS Unit := do
  let s ← JS.get
  -- typeof getCurrentLanguage === 'function' ? getCurrentLanguage() : 'en'
  let currentLang := if s.translationsLoaded then getCurrentLanguage s else "en"
  -- user_id: isAuthenticated ? currentUser.user_id : null
  let user_id ←
    if s.isAuthenticated then JS.lift (getProp (some s.currentUser) "user_id")
    else pure (some JSON.null)
  JS.modify fun s1 => { s1 with trace := s1.trace ++
    [.fetchVoiceBanking ⟨query, user_id, "session_" ++ natToString now, currentLang⟩] }
  processVoiceQuerySettle gateway currentLang

/-- The `catch` block of `processVoiceQuery`. -/
def processVoiceQueryCatch (query : String) : JS Unit := do
  let mockResponse ← getMockResponse query
  addBotMessage (.str mockResponse)
  speakText (.str mockResponse) "en"
  JS.modify fun s1 => { s1 with botStatus := "Ready to help" }

/-- Function `processVoiceQuery` of `app.js`, for the clock reading `now` and
the outcome `gateway` of the request. -/
def processVoiceQuery (query : String) (now : Nat) (gateway : FetchOutcome) : JS Unit := do
  JS.modify fun s => { s with botStatus := "Processing..." }
  JS.tryCatch (processVoiceQueryTry query now gateway) fun _ => processVoiceQueryCatch query

/-! ## Session -/

/-- A value inside a template literal; `none` is `undefined`. -/
def interpolate (v : Option JSON) : Except JSError String :=
  match v with
  | none => .ok "undefined"
  | some value =>
    match toStringJS value with
    | some text => .ok text
    | none => .error .typeError

/-- White space and line terminators, which `String.prototype.trim` strips. -/
def isTrimmable (c : Char) : Bool :=
  [9, 10, 11, 12, 13, 32, 160, 0x1680, 0x2000, 0x2001, 0x2002, 0x2003, 0x2004, 0x2005, 0x2006,
    0x2007, 0x2008, 0x2009, 0x200A, 0x2028, 0x2029, 0x202F, 0x205F, 0x3000, 0xFEFF].contains c.toNat

/-- The method `String.prototype.trim`. -/
def trim (s : String) : String :=
  ⟨((s.data.dropWhile isTrimmable).reverse.dropWhile isTrimmable).reverse⟩

/-- The function `alert`. -/
def alert (message : String) : JS Unit :=
  JS.modify fun s => { s with trace := s.trace ++ [Effect.alert message] }

/-- Function `clearChat` of `app.js`. -/
def clearChat : JS Unit := JS.modify fun s => { s with chat := [] }

/-- Function `toggleVoiceBot` of `app.js`. -/
def toggleVoiceBot : JS Unit := fun s =>
  let s1 : AppState := { s with voiceBotVisible := !s.voiceBotVisible }
  if s1.voiceBotVisible && s1.isAuthenticated && truthy (some s1.currentUser) then
    match (getProp (some s1.currentUser) "name").bind interpolate with
    | .ok name =>
      addBotMessage (.str ("Hello " ++ name ++ "! How can I help you with your banking today?")) s1
    | .error e => (.error e, s1)
  else (.ok (), s1)

/-- The call `account_number.slice(-4)` followed by its use in a template:
does it go through?  A string and an array have `slice`; the rest of an array
is converted element by element. -/
def lastFourOk : JSON → Bool
  | .str _ => true
  | .arr items => (joinJS (items.drop (items.length - 4))).isSome
  | _ => false

/-- Function `loadUserTransactions` of `app.js` up to its first suspension
point: the request is sent; an error raised on the way is caught and logged. -/
def loadUserTransactions (userId : Option JSON) : JS Unit := fun s =>
  match interpolate userId with
  | .ok text => (.ok (), { s with trace := s.trace ++ [Effect.fetchTransactions text] })
  | .error _ => (.ok (), s)

/-- The call `transactions.slice(0, 5)`. -/
def sliceFirstFive : JSON → Except JSError JSON
  | .arr items => .ok (.arr (items.take 5))
  | .str text => .ok (.str ⟨text.data.take 5⟩)
  | _ => .error .typeError

/-- Function `loadUserTransactions` of `app.js` from the moment the request
settles. -/
def loadUserTransactionsSettle (outcome : FetchOutcome) : JS Unit :=
  JS.tryCatch
    (match outcome with
      | .rejected => JS.raise .networkError
      | .response _ none => JS.raise .syntaxError
      | .response _ (some data) => do
        let success ← JS.lift (getProp (some data) "success")
        if truthy success then
          let transactions ← JS.lift (getProp (some data) "transactions")
          whenTruthy transactions fun list => do
            let firstFive ← JS.lift (sliceFirstFive list)
            updateTransactionHistory (some firstFive)
        else pure ())
    fun _ => pure ()

/-- Function `showDashboard` of `app.js`. -/
def showDashboard : JS Unit := fun s =>
  if !truthy (some s.currentUser) then (.ok (), s)
  else
    -- userName.textContent = currentUser.name
    match (getProp (some s.currentUser) "name").bind interpolate with
    | .error e => (.error e, s)
    | .ok _ =>
      -- accountBalance.textContent = ... currentUser.balance.toLocaleString(...)
      match getProp (some s.currentUser) "balance" with
      | .ok (some balance) =>
        if s.hasBalanceElement && toLocaleStringOk balance then
          let s1 : AppState := { s with shownBalance := some balance }
          match getProp (some s1.currentUser) "account_number" with
          | .ok account_number =>
            if s1.hasAccountNumberElement && truthy account_number
                && !(account_number.all lastFourOk) then (.error .typeError, s1)
            else
              match getProp (some s1.currentUser) "user_id" with
              | .ok user_id => loadUserTransactions user_id s1
              | .error e => (.error e, s1)
          | .error e => (.error e, s1)
        else (.error .typeError, s)
      | _ => (.error .typeError, s)

/-- Function `checkAuthStatus` of `app.js`. -/
def checkAuthStatus : JS Unit := fun s =>
  let authStatus := s.sessionStorage.getItem "isAuthenticated"
  let userData := s.sessionStorage.getItem "currentUser"
  match userData with
  | some text =>
    if authStatus = some "true" ∧ text ≠ "" then
      let s1 : AppState := { s with isAuthenticated := true }
      match JSON.parse text with
      | .error e => (.error e, s1)
      | .ok user => showDashboard { s1 with currentUser := user }
    else (.ok (), s)
  | none => (.ok (), s)

/-- The object `users` of `handleLogin`. -/
def users : List (String × JSON) :=
  [ ("neha", .obj
      [ ("password", .str "neha123"),
        ("user_id", .str "neha"),
        ("name", .str "Neha Sharma"),
        ("account_number", .str "NGB001234567890"),
        ("balance", .num ⟨125000, 0⟩),
        ("phone", .str "+91-9876543210"),
        ("email", .str "neha.sharma@email.com") ]),
    ("niyati", .obj
      [ ("password", .str "niyati123"),
        ("user_id", .str "niyati"),
        ("name", .str "Niyati Patel"),
        ("account_number", .str "NGB009876543210"),
        ("balance", .num ⟨87500, 0⟩),
        ("phone", .str "+91-9123456789"),
        ("email", .str "niyati.patel@email.com") ]) ]

/-- The test `users[username] && users[username].password === password`,
with the entry when it holds.  A name that `users` only inherits (such as
`constructor`) yields a value without a `password`, so the test fails for it
as it does for a name that is not there at all. -/
def acceptedUser (username password : String) : Option JSON :=
  match lookupField username users with
  | some entry =>
    match getProp (some entry) "password" with
    | .ok (some (.str stored)) => if stored = password then some entry else none
    | _ => none
  | none => none

/-- The alert of a failed login. -/
def loginFailedMessage : String :=
  "Invalid username or password. Please try again.\n\nDemo users:\n- Username: neha, Password: neha123\n- Username: niyati, Password: niyati123"

/-- Function `handleLogin` of `app.js` (the second declaration, which is the
one in force), for the contents of the two input fields. -/
def handleLogin (usernameInput passwordInput : String) : JS Unit := fun s =>
  let username := toLowerCase (trim usernameInput)
  let password := passwordInput
  match acceptedUser username password with
  | some entry =>
    -- delete user.password
    let user := deleteProp entry "password"
    let s1 : AppState := { s with
      currentUser := user
      isAuthenticated := true
      sessionStorage :=
        (s.sessionStorage.setItem "isAuthenticated" "true").setItem "currentUser"
          (JSON.stringify user) }
    (do
      clearChat
      let name ← JS.lift ((getProp (some user) "name").bind interpolate)
      alert ("Welcome back, " ++ name ++ "! 👋")
      showDashboard
      let s2 ← JS.get
      if s2.voiceBotVisible then
        addBotMessage (.str ("Hello " ++ name ++
          "! I'm your AI banking assistant. How can I help you today?"))
      else pure ()) s1
  | none => alert loginFailedMessage s

/-- Function `logout` of `app.js` (the second declaration, which is the one in
force). -/
def logout : JS Unit := do
  JS.modify fun s => { s with
    isAuthenticated := false
    currentUser := .null
    sessionStorage := (s.sessionStorage.removeItem "isAuthenticated").removeItem "currentUser" }
  clearChat
  let s ← JS.get
  if s.voiceBotVisible then toggleVoiceBot else pure ()
  alert "You have been logged out successfully."

/-- A fresh load of the page `page` in the browsing session of `s`: the
variables of `app.js` have their initial values, `sessionStorage` is kept. -/
def reload (page s : AppState) : AppState :=
  { page with
    isRecording := false
    isAuthenticated := false
    currentUser := .null
    voiceBotVisible := false
    sessionStorage := s.sessionStorage }

/-! ## The fallback rule list as the specification words it -/

/-- The priority-ordered rule list: the keywords of a rule and its answer. -/
def fallbackRules : List (List String × String) :=
  [ (["balance"], balanceAnswer),
    (["transaction", "history"], transactionsAnswer),
    (["transfer"], transferAnswer),
    (["loan"], loanAnswer),
    (["credit"], creditAnswer) ]

/-- The answer of the first rule one of whose keywords occurs, the default
help sentence when no keyword occurs. -/
def firstMatchingAnswer (occurs : String → Bool) : String :=
  match fallbackRules.find? (fun rule => rule.1.any occurs) with
  | some rule => rule.2
  | none => defaultAnswer

/-- Does `keyword` occur in `lowered` as a block of consecutive characters? -/
def occursIn (lowered keyword : String) : Bool := decide (keyword.data <:+: lowered.data)

/-- The responder of the specification: first matching rule wins, on the
lower-cased text. -/
def respondSpec (text : String) : String := firstMatchingAnswer (occursIn (toLowerCase text))

/-! ## Sample states -/

/-- The profile `handleLogin` stores for the demo user `neha`. -/
def nehaProfile : JSON :=
  .obj
    [ ("user_id", .str "neha"),
      ("name", .str "Neha Sharma"),
      ("account_number", .str "NGB001234567890"),
      ("balance", .num ⟨125000, 0⟩),
      ("phone", .str "+91-9876543210"),
      ("email", .str "neha.sharma@email.com") ]

/-- A page on which `neha` is logged in. -/
def nehaSession : AppState :=
  { initialState with
    isAuthenticated := true
    currentUser := nehaProfile
    sessionStorage := [("isAuthenticated", "true"), ("currentUser", JSON.stringify nehaProfile)] }

/-- One transaction as the gateway delivers it. -/
def transaction (type description date : String) (amount : JSNumber) : JSON :=
  .obj [("type", .str type), ("description", .str description), ("date", .str date),
    ("amount", .num amount)]

/-- Six transactions, newest first. -/
def sixTransactions : List JSON :=
  [ transaction "debit" "Grocery store" "2024-11-20" ⟨150, 0⟩,
    transaction "credit" "Salary" "2024-11-18" ⟨3000, 0⟩,
    transaction "debit" "Restaurant" "2024-11-15" ⟨8525, 2⟩,
    transaction "debit" "Fuel" "2024-11-12" ⟨2000, 0⟩,
    transaction "credit" "Refund" "2024-11-10" ⟨499, 0⟩,
    transaction "debit" "Pharmacy" "2024-11-08" ⟨320, 0⟩ ]

/-! ## Well-formed payloads (data model of the specification) -/

/-- A field that is absent or holds a text. -/
def isOptionalText : Option JSON → Bool
  | none => true
  | some (.str _) => true
  | some _ => false

/-- A `Transaction` of the data model: an object whose `type`, `description`
and `date`, when present, are texts and whose `amount` is a number. -/
def isTransaction : JSON → Bool
  | .obj fields =>
    isOptionalText (lookupField "type" fields) &&
    isOptionalText (lookupField "description" fields) &&
    isOptionalText (lookupField "date" fields) &&
    (match lookupField "amount" fields with
      | some (.num _) => true
      | _ => false)
  | _ => false

/-- An `accountBalance` of the data model: absent, or a number. -/
def isOptionalNumber : Option JSON → Bool
  | none => true
  | some (.num _) => true
  | some _ => false

/-- A `transactionHistory` of the data model: absent, or a list of
transactions. -/
def isOptionalHistory : Option JSON → Bool
  | none => true
  | some (.arr items) => items.all isTransaction
  | some _ => false

/-- A snapshot whose flag is set and whose user entry is not JSON. -/
def brokenSnapshot : Storage := [("isAuthenticated", "true"), ("currentUser", "\x7boops")]

/-- A gateway body with six transactions. -/
def sixTransactionsBody : JSON :=
  .obj [("response", .str "Here are your transactions"),
    ("transaction_history", .arr sixTransactions)]

/-! ## Frame conditions -/

/-- The session: the two variables of `app.js` and the snapshot. -/
def sessionOf (s : AppState) : Bool × JSON × Storage :=
  (s.isAuthenticated, s.currentUser, s.sessionStorage)

/-- The function `m` leaves `view` of the state as it found it, whether it
returns or raises. -/
def Keeps {α β : Type} (view : AppState → β) (m : JS α) : Prop :=
  ∀ s, view (m s).2 = view s

/-- A gateway body that reports a balance of zero. -/
def zeroBalanceBody : JSON :=
  .obj [("response", .str "Your balance is zero"), ("account_balance", .num ⟨0, 0⟩)]

/-- A gateway body that reports a balance of 200. -/
def balance200Body : JSON :=
  .obj [("response", .str "Hi"), ("account_balance", .num ⟨200, 0⟩)]

/-- A gateway body whose one transaction has no amount. -/
def noAmountBody : JSON :=
  .obj [("response", .str "Hi"),
    ("transaction_history", .arr [.obj [("type", .str "debit"), ("description", .str "Grocery")]])]

/-! ## Speech capture -/

/-- Function `toggleVoiceRecording` of `app.js`, up to the return of
`recognition.start()`; `startRaises` tells whether creating or starting the
recognition raises (the `catch` block then runs). -/
def toggleVoiceRecording (startRaises : Bool) : JS Unit := fun s =>
  if !s.isRecording then
    -- Start recording
    let s1 : AppState := { s with isRecording := true, botStatus := "Listening..." }
    if s1.speechRecognition then
      if startRaises then
        (.ok (), { s1 with isRecording := false, botStatus := "Error" })
      else
        (.ok (), { s1 with recognitionsInFlight := s1.recognitionsInFlight + 1 })
    else
      (.ok (), { s1 with
        trace := s1.trace ++ [Effect.alert
          "Voice recognition is not supported in your browser. Please use Chrome or Edge."]
        isRecording := false
        botStatus := "Voice not supported" })
  else
    -- Stop recording (handled by recognition.onend)
    (.ok (), { s with isRecording := false })

/-- The handler `recognition.onerror` set by `toggleVoiceRecording`. -/
def recognitionOnError (code : String) : JS Unit := do
  JS.modify fun s => { s with botStatus := "Error: " ++ code }
  addBotMessage (.str "Sorry, I couldn't understand that. Please try again.")

/-- The handler `recognition.onend` set by `toggleVoiceRecording`. -/
def recognitionOnEnd : JS Unit :=
  JS.modify fun s => { s with
    isRecording := false
    botStatus := "Ready to help"
    recognitionsInFlight := s.recognitionsInFlight - 1 }

/-- The handler `recognition.onresult` set by `toggleVoiceRecording`, for the
transcript of the utterance. -/
def recognitionOnResult (transcript : String) (now : Nat) (gateway : FetchOutcome) : JS Unit := do
  addUserMessage (.str transcript)
  processVoiceQuery transcript now gateway

/-- A gateway body whose transaction history is not a list. -/
def notAListBody : JSON :=
  .obj [("response", .str "Hi"), ("transaction_history", .obj [("count", .num ⟨0, 0⟩)])]

/-! ## Voice choice as the specification words it -/

/-- The allow-list of name fragments of a language. -/
def nameFragments (lang : String) : List String :=
  if lang = "hi" then ["male", "man", "ravi", "hemant"]
  else if lang = "gu" then ["male", "man"]
  else ["male", "david", "james", "george", "daniel"]

/-- Is `part` a block of consecutive characters of `text`? -/
def containsText (text part : String) : Bool := decide (part.data <:+: text.data)

/-- Does `text` start with `part`? -/
def startsWithText (text part : String) : Bool := decide (part.data <+: text.data)

/-- The voice as the claim words the choice: language tags are matched at
their start, and the second pass takes any voice of the language. -/
def selectVoiceClaimed (lang : String) (voices : List Voice) : Option Voice :=
  match voices.find? (fun voice => startsWithText voice.lang lang &&
      (nameFragments lang).any fun fragment => containsText (toLowerCase voice.name) fragment) with
  | some voice => some voice
  | none => voices.find? fun voice => startsWithText voice.lang lang

/-- The language tags the second pass accepts. -/
def fallbackTags (lang : String) : List String :=
  if lang = "en" then ["en-US", "en-GB"] else [lang]

/-- The voice as the amended claim words the choice: language tags are matched
anywhere in the tag, and the second pass for English takes `en-US` and `en-GB`
only. -/
def selectVoiceAmended (lang : String) (voices : List Voice) : Option Voice :=
  match voices.find? (fun voice => containsText voice.lang lang &&
      (nameFragments lang).any fun fragment => containsText (toLowerCase voice.name) fragment) with
  | some voice => some voice
  | none => voices.find? fun voice => (fallbackTags lang).any fun tag => containsText voice.lang tag

/-- An Australian English voice. -/
def karen : Voice := ⟨"Karen", "en-AU"⟩

/-- A Valencian voice with a name of the English allow-list. -/
def jordi : Voice := ⟨"Jordi (male)", "ca-ES-valencia"⟩

/-- A British English voice. -/
def serena : Voice := ⟨"Serena", "en-GB"⟩

/-! ## Decimal digit runs -/

/-- Value of a run of decimal digits on top of `acc`. -/
def digitsValue (acc : Nat) (digits : List Char) : Nat :=
  digits.foldl (fun value c => value * 10 + (c.toNat - 48)) acc

/-- The thread identifiers of the requests recorded in a trace, oldest first. -/
def threadIds : List Effect → List String
  | [] => []
  | .fetchVoiceBanking body :: rest => body.thread_id :: threadIds rest
  | _ :: rest => threadIds rest

/-! ## Values that JSON text carries unchanged -/

/-- A number as JavaScript holds it: no trailing zero in its fraction. -/
def JSNumber.isCanonical (n : JSNumber) : Prop := n.scale = 0 ∨ n.mantissa % 10 ≠ 0

/-- The text after a number does not continue the number. -/
def EndsNumber (rest : List Char) : Prop :=
  ∀ c, rest.head? = some c → c.isDigit = false ∧ c ≠ '.' ∧ c ≠ 'e' ∧ c ≠ 'E'


/-- A character that `JSON.stringify` writes as itself inside a string
literal. -/
def PlainChar (c : Char) : Prop := c ≠ '"' ∧ c ≠ '\\' ∧ 32 ≤ c.toNat

/-- A text of plain characters. -/
def PlainText (s : String) : Prop := ∀ c ∈ s.data, PlainChar c

/-- A text of plain characters or a canonical number. -/
def FlatValue : JSON → Prop
  | .str s => PlainText s
  | .num n => n.isCanonical
  | _ => False


/-! ## Sequences of session calls -/

/-- The profile `handleLogin` stores for a demo user (`niyati` when `second`
holds, `neha` otherwise), with `balance` as its balance. -/
def demoProfile (second : Bool) (balance : JSNumber) : JSON :=
  if second then
    .obj
      [ ("user_id", .str "niyati"),
        ("name", .str "Niyati Patel"),
        ("account_number", .str "NGB009876543210"),
        ("balance", .num balance),
        ("phone", .str "+91-9123456789"),
        ("email", .str "niyati.patel@email.com") ]
  else
    .obj
      [ ("user_id", .str "neha"),
        ("name", .str "Neha Sharma"),
        ("account_number", .str "NGB001234567890"),
        ("balance", .num balance),
        ("phone", .str "+91-9876543210"),
        ("email", .str "neha.sharma@email.com") ]

/-- One call of a session function of `app.js`, with its arguments. -/
inductive SessionCall where
  | handleLogin (usernameInput passwordInput : String)
  | logout
  | checkAuthStatus
  | updateAccountBalance (balance : JSON)

/-- The state one call leaves behind; a call that raises leaves the state it
had reached at that moment. -/
def runCall : SessionCall → AppState → AppState
  | .handleLogin usernameInput passwordInput, s => (handleLogin usernameInput passwordInput s).2
  | .logout, s => (logout s).2
  | .checkAuthStatus, s => (checkAuthStatus s).2
  | .updateAccountBalance balance, s => (updateAccountBalance balance s).2

/-- The state a sequence of calls leaves behind, first call first. -/
def runCalls (calls : List SessionCall) (s : AppState) : AppState :=
  calls.foldl (fun state call => runCall call state) s

/-- The balance a call of `updateAccountBalance` passes is a number as
JavaScript holds it; the other calls pass no balance. -/
def SessionCall.numeric : SessionCall → Prop
  | .updateAccountBalance (.num n) => n.isCanonical
  | .updateAccountBalance _ => False
  | _ => True

/-- The states the session functions move between: signed out with no
snapshot, or signed in as a demo user with the snapshot of the profile. -/
def SessionConsistent (s : AppState) : Prop :=
  (s.isAuthenticated = false ∧ s.currentUser = .null ∧
    s.sessionStorage.getItem "isAuthenticated" = none ∧
    s.sessionStorage.getItem "currentUser" = none) ∨
  (∃ second balance, balance.isCanonical ∧
    s.isAuthenticated = true ∧ s.currentUser = demoProfile second balance ∧
    s.sessionStorage.getItem "isAuthenticated" = some "true" ∧
    s.sessionStorage.getItem "currentUser" = some (JSON.stringify (demoProfile second balance)))


/-! ## Snapshots -/

/-- A `UserProfile` of the data model: an object whose `user_id`, `name` and
`account_number`, when present, are texts and whose `balance` is a number. -/
def isUserProfile : JSON → Bool
  | .obj fields =>
    isOptionalText (lookupField "user_id" fields) &&
    isOptionalText (lookupField "name" fields) &&
    isOptionalText (lookupField "account_number" fields) &&
    (match lookupField "balance" fields with
      | some (.num _) => true
      | _ => false)
  | _ => false

/-- A snapshot whose flag is set and whose user entry is the empty object. -/
def emptyProfileSnapshot : Storage := [("isAuthenticated", "true"), ("currentUser", "\x7b\x7d")]

/-- A snapshot whose flag is set and whose user entry holds an escaped
surrogate without its partner, which `JSON.parse` accepts. -/
def loneSurrogateSnapshot : Storage :=
  [("isAuthenticated", "true"),
    ("currentUser", "\x7b\"name\":\"\\ud83d\",\"balance\":5\x7d")]

end NextGenBanking

/-! # Theorems -/

namespace NextGenBanking

/-! ## Strings and the monad -/

theorem includesChars_iff (l p : List Char) : includesChars l p = true ↔ p <:+: l := by
  induction l with
  | nil => simp [includesChars, List.infix_nil]
  | cons c cs ih =>
    simp only [includesChars, Bool.or_eq_true, ih, List.infix_cons_iff, List.isPrefixOf_iff_prefix]

theorem includes_iff (s p : String) : includes s p = true ↔ p.data <:+: s.data :=
  includesChars_iff s.data p.data

theorem includes_eq_false {s p : String} (h : ¬ p.data <:+: s.data) : includes s p = false := by
  rw [Bool.eq_false_iff]
  exact fun hi => h ((includes_iff s p).1 hi)

theorem occursIn_eq_includes (lowered keyword : String) :
    occursIn lowered keyword = includes lowered keyword := by
  rw [occursIn, Bool.eq_iff_iff, decide_eq_true_iff, includes_iff]

theorem updateAccountBalance_num (n : JSNumber) (s : AppState) :
    (updateAccountBalance (.num n) s).1 = .ok () := by
  unfold updateAccountBalance
  simp only [toLocaleStringOk]
  split_ifs <;> first | rfl | simp_all

theorem getMockResponse_balance_branch (query : String) (s : AppState)
    (h : includes (toLowerCase query) "balance" = true) :
    (getMockResponse query s).1 = .ok balanceAnswer := by
  have hb := updateAccountBalance_num demoBalance s
  unfold getMockResponse
  simp only [h, if_true, bind, JS.andThen, pure, JS.ret]
  split
  · rfl
  · simp_all

theorem firstMatchingAnswer_eq (occurs : String → Bool) :
    firstMatchingAnswer occurs =
      if occurs "balance" then balanceAnswer
      else if occurs "transaction" || occurs "history" then transactionsAnswer
      else if occurs "transfer" then transferAnswer
      else if occurs "loan" then loanAnswer
      else if occurs "credit" then creditAnswer
      else defaultAnswer := by
  simp only [firstMatchingAnswer, fallbackRules, List.find?, List.any, Bool.or_false]
  cases occurs "balance" <;> cases occurs "transaction" <;> cases occurs "history" <;>
    cases occurs "transfer" <;> cases occurs "loan" <;> cases occurs "credit" <;> rfl

theorem respondSpec_eq (text : String) :
    respondSpec text =
      if includes (toLowerCase text) "balance" then balanceAnswer
      else if includes (toLowerCase text) "transaction" || includes (toLowerCase text) "history"
        then transactionsAnswer
      else if includes (toLowerCase text) "transfer" then transferAnswer
      else if includes (toLowerCase text) "loan" then loanAnswer
      else if includes (toLowerCase text) "credit" then creditAnswer
      else defaultAnswer := by
  rw [respondSpec, firstMatchingAnswer_eq]
  simp only [occursIn_eq_includes]

theorem getMockResponse_value (query : String) (s : AppState) :
    (getMockResponse query s).1 = .ok (respondSpec query) := by
  rw [respondSpec_eq]
  by_cases h1 : includes (toLowerCase query) "balance" = true
  · rw [getMockResponse_balance_branch query s h1, if_pos h1]
  · have h1f : includes (toLowerCase query) "balance" = false := by simpa using h1
    simp only [getMockResponse, h1f, Bool.false_eq_true, if_false]
    split_ifs <;> rfl

/-! ## Local fallback responder -/

/-- C1: whenever the lower-cased query contains `balance`, `getMockResponse`
returns the fixed balance sentence, in every state and whatever else the text
contains. -/
theorem getMockResponse_balance (query : String) (s : AppState)
    (h : "balance".data <:+: (toLowerCase query).data) :
    (getMockResponse query s).1 =
      .ok "Your current account balance is ₹15,750.50. Is there anything else I can help you with?" :=
  getMockResponse_balance_branch query s ((includes_iff _ _).2 h)

theorem getMockResponse_balance_witness :
    "balance".data <:+: (toLowerCase "Loan or credit? Show my BALANCE and history").data ∧
    (getMockResponse "Loan or credit? Show my BALANCE and history" nehaSession).1 =
      .ok "Your current account balance is ₹15,750.50. Is there anything else I can help you with?" :=
  ⟨(includes_iff _ _).1 (by decide),
   getMockResponse_balance _ nehaSession ((includes_iff _ _).1 (by decide))⟩

/-- C2: `getMockResponse` returns the answer of the first rule, in the order
balance, transaction-or-history, transfer, loan, credit, one of whose keywords
occurs in the lower-cased text, and the default help sentence when none
occurs (`respondSpec`).  Hence a text with both `loan` and `transfer` gets the
transfer answer and a text with both `credit` and `history` gets the
transactions answer, no rule before the winning one matching. -/
theorem getMockResponse_first_rule (query : String) (s : AppState) :
    (getMockResponse query s).1 = .ok (respondSpec query) ∧
    ("loan".data <:+: (toLowerCase query).data → "transfer".data <:+: (toLowerCase query).data →
      ¬ "balance".data <:+: (toLowerCase query).data →
      ¬ "transaction".data <:+: (toLowerCase query).data →
      ¬ "history".data <:+: (toLowerCase query).data →
      (getMockResponse query s).1 = .ok transferAnswer) ∧
    ("credit".data <:+: (toLowerCase query).data → "history".data <:+: (toLowerCase query).data →
      ¬ "balance".data <:+: (toLowerCase query).data →
      (getMockResponse query s).1 = .ok transactionsAnswer) := by
  refine ⟨getMockResponse_value query s, ?_, ?_⟩
  · intro _ ht hb hx hh
    have ht1 := (includes_iff _ _).2 ht
    have hb1 := includes_eq_false hb
    have hx1 := includes_eq_false hx
    have hh1 := includes_eq_false hh
    rw [getMockResponse_value, respondSpec_eq]
    simp [ht1, hb1, hx1, hh1]
  · intro _ hh hb
    have hh1 := (includes_iff _ _).2 hh
    have hb1 := includes_eq_false hb
    rw [getMockResponse_value, respondSpec_eq]
    simp [hh1, hb1]

theorem getMockResponse_first_rule_witness :
    (getMockResponse "Transfer my LOAN" nehaSession).1 = .ok transferAnswer ∧
    (getMockResponse "credit card History" nehaSession).1 = .ok transactionsAnswer :=
  ⟨(getMockResponse_first_rule "Transfer my LOAN" nehaSession).2.1
      ((includes_iff _ _).1 (by decide)) ((includes_iff _ _).1 (by decide))
      (fun h => absurd ((includes_iff _ _).2 h) (by decide))
      (fun h => absurd ((includes_iff _ _).2 h) (by decide))
      (fun h => absurd ((includes_iff _ _).2 h) (by decide)),
   (getMockResponse_first_rule "credit card History" nehaSession).2.2
      ((includes_iff _ _).1 (by decide)) ((includes_iff _ _).1 (by decide))
      (fun h => absurd ((includes_iff _ _).2 h) (by decide))⟩

/-! ## Monad steps -/

theorem JS.bind_eq {α β : Type} (m : JS α) (f : α → JS β) : (m >>= f) = JS.andThen m f := rfl

theorem JS.pure_eq {α : Type} (a : α) : (pure a : JS α) = JS.ret a := rfl

theorem JS.andThen_of_ok {α β : Type} {m : JS α} {f : α → JS β} {s : AppState} {a : α}
    (h : (m s).1 = .ok a) : JS.andThen m f s = f a (m s).2 := by
  unfold JS.andThen
  rcases hm : m s with ⟨r, s1⟩
  rw [hm] at h
  simp only at h
  subst h
  rfl

theorem JS.andThen_of_error {α β : Type} {m : JS α} {f : α → JS β} {s : AppState} {e : JSError}
    (h : (m s).1 = .error e) : JS.andThen m f s = (.error e, (m s).2) := by
  unfold JS.andThen
  rcases hm : m s with ⟨r, s1⟩
  rw [hm] at h
  simp only at h
  subst h
  rfl

theorem JS.tryCatch_of_ok {α : Type} {m : JS α} {h : JSError → JS α} {s : AppState} {a : α}
    (hm : (m s).1 = .ok a) : JS.tryCatch m h s = (.ok a, (m s).2) := by
  unfold JS.tryCatch
  rcases hms : m s with ⟨r, s1⟩
  rw [hms] at hm
  simp only at hm
  subst hm
  rfl

theorem JS.tryCatch_of_error {α : Type} {m : JS α} {h : JSError → JS α} {s : AppState}
    {e : JSError} (hm : (m s).1 = .error e) : JS.tryCatch m h s = h e (m s).2 := by
  unfold JS.tryCatch
  rcases hms : m s with ⟨r, s1⟩
  rw [hms] at hm
  simp only at hm
  subst hm
  rfl

/-! ## Storage -/

theorem Storage.getItem_setItem_same (st : Storage) (key value : String) :
    (st.setItem key value).getItem key = some value := by
  induction st with
  | nil => simp [Storage.setItem, Storage.getItem]
  | cons kv rest ih =>
    obtain ⟨k, v⟩ := kv
    by_cases h : k = key
    · simp [Storage.setItem, Storage.getItem, h]
    · simp [Storage.setItem, Storage.getItem, h, ih]

theorem Storage.getItem_setItem_ne (st : Storage) {key other : String} (value : String)
    (h : key ≠ other) : (st.setItem key value).getItem other = st.getItem other := by
  induction st with
  | nil => simp [Storage.setItem, Storage.getItem, h]
  | cons kv rest ih =>
    obtain ⟨k, v⟩ := kv
    by_cases hk : k = key
    · subst hk
      simp [Storage.setItem, Storage.getItem, h]
    · by_cases ho : k = other
      · subst ho
        simp [Storage.setItem, Storage.getItem, hk]
      · simp [Storage.setItem, Storage.getItem, hk, ho, ih]

theorem Storage.getItem_removeItem_same (st : Storage) (key : String) :
    (st.removeItem key).getItem key = none := by
  induction st with
  | nil => simp [Storage.removeItem, Storage.getItem]
  | cons kv rest ih =>
    obtain ⟨k, v⟩ := kv
    by_cases h : k = key
    · simp [Storage.removeItem, h, ih]
    · simp [Storage.removeItem, Storage.getItem, h, ih]

theorem Storage.getItem_removeItem_ne (st : Storage) {key other : String} (h : key ≠ other) :
    (st.removeItem key).getItem other = st.getItem other := by
  induction st with
  | nil => simp [Storage.removeItem, Storage.getItem]
  | cons kv rest ih =>
    obtain ⟨k, v⟩ := kv
    by_cases hk : k = key
    · subst hk
      simp [Storage.removeItem, Storage.getItem, h, ih]
    · by_cases ho : k = other
      · subst ho
        simp [Storage.removeItem, Storage.getItem, hk]
      · simp [Storage.removeItem, Storage.getItem, hk, ho, ih]

/-! ## Transaction list -/

set_option maxRecDepth 100000 in
/-- C3: at a list of six transactions `updateTransactionHistory` renders all
six entries, called directly or from `processVoiceQuery`, where the claim asks
for the first five; the path through `loadUserTransactions` cuts the same list
down to its first five before the call. -/
theorem updateTransactionHistory_renders_six :
    sixTransactions.length = 6 ∧
    (updateTransactionHistory (some (.arr sixTransactions)) nehaSession).2.shownTransactions
      = sixTransactions ∧
    (processVoiceQuery "show my history" 0 (.response true (some sixTransactionsBody))
        nehaSession).2.shownTransactions = sixTransactions ∧
    (loadUserTransactionsSettle (.response true (some (.obj
        [("success", .bool true), ("transactions", .arr sixTransactions)])))
        nehaSession).2.shownTransactions = sixTransactions.take 5 :=
  ⟨rfl, rfl, rfl, rfl⟩

/-! ## Session restore -/

theorem logout_run (s : AppState) :
    (logout s).1 = .ok () ∧
    (logout s).2.sessionStorage =
      (s.sessionStorage.removeItem "isAuthenticated").removeItem "currentUser" ∧
    (logout s).2.isAuthenticated = false ∧ (logout s).2.currentUser = .null := by
  cases hv : s.voiceBotVisible <;>
    simp [logout, JS.bind_eq, JS.pure_eq, JS.andThen, JS.modify, clearChat, JS.get, alert, JS.ret,
      toggleVoiceBot, hv]

/-- C5: `logout` removes both snapshot keys, so `checkAuthStatus` on a fresh
load of any page finds nothing to rebuild: it returns normally, changes
nothing, and the session is unauthenticated with no user. -/
theorem logout_then_restore (s page : AppState) :
    (logout s).1 = .ok () ∧
    (logout s).2.sessionStorage.getItem "isAuthenticated" = none ∧
    (logout s).2.sessionStorage.getItem "currentUser" = none ∧
    checkAuthStatus (reload page (logout s).2) = (.ok (), reload page (logout s).2) ∧
    (checkAuthStatus (reload page (logout s).2)).2.isAuthenticated = false ∧
    (checkAuthStatus (reload page (logout s).2)).2.currentUser = .null := by
  obtain ⟨hok, hst, _, _⟩ := logout_run s
  have h1 : (logout s).2.sessionStorage.getItem "isAuthenticated" = none := by
    rw [hst, Storage.getItem_removeItem_ne _ (by decide), Storage.getItem_removeItem_same]
  have h2 : (logout s).2.sessionStorage.getItem "currentUser" = none := by
    rw [hst, Storage.getItem_removeItem_same]
  have h3 : checkAuthStatus (reload page (logout s).2) = (.ok (), reload page (logout s).2) := by
    unfold checkAuthStatus
    have : (reload page (logout s).2).sessionStorage = (logout s).2.sessionStorage := rfl
    simp only [this, h2]
  refine ⟨hok, h1, h2, h3, ?_, ?_⟩
  · rw [h3]; rfl
  · rw [h3]; rfl

/-! ## Frame rules -/

theorem Keeps.ret {α β : Type} (view : AppState → β) (a : α) : Keeps view (JS.ret a) :=
  fun _ => rfl

theorem Keeps.pure {α β : Type} (view : AppState → β) (a : α) : Keeps view (pure a : JS α) :=
  fun _ => rfl

theorem Keeps.raise {α β : Type} (view : AppState → β) (e : JSError) :
    Keeps view (JS.raise e : JS α) :=
  fun _ => rfl

theorem Keeps.lift {α β : Type} (view : AppState → β) (r : Except JSError α) :
    Keeps view (JS.lift r) :=
  fun _ => rfl

theorem Keeps.get {β : Type} (view : AppState → β) : Keeps view JS.get :=
  fun _ => rfl

theorem Keeps.modify {β : Type} {view : AppState → β} {f : AppState → AppState}
    (h : ∀ s, view (f s) = view s) : Keeps view (JS.modify f) :=
  fun s => h s

theorem Keeps.andThen {α γ β : Type} {view : AppState → β} {m : JS α} {f : α → JS γ}
    (hm : Keeps view m) (hf : ∀ a, Keeps view (f a)) : Keeps view (JS.andThen m f) := by
  intro s
  unfold JS.andThen
  have h := hm s
  rcases hms : m s with ⟨r, s1⟩
  rw [hms] at h
  cases r with
  | error e => exact h
  | ok a => exact (hf a s1).trans h

theorem Keeps.bind {α γ β : Type} {view : AppState → β} {m : JS α} {f : α → JS γ}
    (hm : Keeps view m) (hf : ∀ a, Keeps view (f a)) : Keeps view (m >>= f) :=
  Keeps.andThen hm hf

theorem Keeps.tryCatch {α β : Type} {view : AppState → β} {m : JS α} {h : JSError → JS α}
    (hm : Keeps view m) (hh : ∀ e, Keeps view (h e)) : Keeps view (JS.tryCatch m h) := by
  intro s
  unfold JS.tryCatch
  have hs := hm s
  rcases hms : m s with ⟨r, s1⟩
  rw [hms] at hs
  cases r with
  | error e => exact (hh e s1).trans hs
  | ok a => exact hs

theorem Keeps.ite {α β : Type} {view : AppState → β} {c : Prop} [Decidable c] {m n : JS α}
    (hm : Keeps view m) (hn : Keeps view n) : Keeps view (if c then m else n) := by
  split
  · exact hm
  · exact hn

theorem addBotMessage_keeps_session (message : JSON) : Keeps sessionOf (addBotMessage message) := by
  intro s
  unfold addBotMessage
  split <;> rfl

theorem showDashboard_keeps_session : Keeps sessionOf showDashboard := by
  intro s
  unfold showDashboard loadUserTransactions sessionOf
  repeat' first | split | simp

theorem clearChat_keeps_session : Keeps sessionOf clearChat := fun _ => rfl

theorem alert_keeps_session (message : String) : Keeps sessionOf (alert message) := fun _ => rfl

/-! ## Login and restore -/

theorem handleLogin_accepted (usernameInput passwordInput : String) (s : AppState) (entry : JSON)
    (h : acceptedUser (toLowerCase (trim usernameInput)) passwordInput = some entry) :
    sessionOf (handleLogin usernameInput passwordInput s).2 =
      (true, deleteProp entry "password",
        (s.sessionStorage.setItem "isAuthenticated" "true").setItem "currentUser"
          (JSON.stringify (deleteProp entry "password"))) := by
  unfold handleLogin
  simp only [h]
  refine (Keeps.bind clearChat_keeps_session fun _ =>
    Keeps.bind (Keeps.lift _ _) fun name =>
    Keeps.bind (alert_keeps_session _) fun _ =>
    Keeps.bind showDashboard_keeps_session fun _ =>
    Keeps.bind (Keeps.get _) fun s2 =>
    Keeps.ite (addBotMessage_keeps_session _) (Keeps.pure _ _)) _ |>.trans ?_
  rfl

theorem acceptedUser_cases {username password : String} {entry : JSON}
    (h : acceptedUser username password = some entry) :
    (username = "neha" ∧ password = "neha123" ∧ deleteProp entry "password" = nehaProfile) ∨
    (username = "niyati" ∧ password = "niyati123" ∧
      deleteProp entry "password" = .obj
        [ ("user_id", .str "niyati"),
          ("name", .str "Niyati Patel"),
          ("account_number", .str "NGB009876543210"),
          ("balance", .num ⟨87500, 0⟩),
          ("phone", .str "+91-9123456789"),
          ("email", .str "niyati.patel@email.com") ]) := by
  unfold acceptedUser users at h
  simp only [lookupField] at h
  split_ifs at h with h1 h2
  · left
    simp only [getProp, lookupField, if_true] at h
    split_ifs at h with hp
    · simp only [Option.some.injEq] at h
      subst h
      exact ⟨h1.symm, hp.symm, rfl⟩
  · right
    simp only [getProp, lookupField, if_true] at h
    split_ifs at h with hp
    · simp only [Option.some.injEq] at h
      subst h
      exact ⟨h2.symm, hp.symm, rfl⟩

theorem checkAuthStatus_restores (s : AppState) (text : String) (user : JSON)
    (hflag : s.sessionStorage.getItem "isAuthenticated" = some "true")
    (huser : s.sessionStorage.getItem "currentUser" = some text) (hne : text ≠ "")
    (hparse : JSON.parse text = .ok user) :
    (checkAuthStatus s).2.isAuthenticated = true ∧ (checkAuthStatus s).2.currentUser = user := by
  unfold checkAuthStatus
  simp only [huser, hflag, hne, hparse, ne_eq, not_false_eq_true, and_self, if_true]
  have h := showDashboard_keeps_session
    { s with isAuthenticated := true, currentUser := user }
  simp only [sessionOf, Prod.mk.injEq] at h
  exact ⟨h.1, h.2.1⟩

set_option maxRecDepth 100000 in
theorem parse_stringify_demo_profile {username password : String} {entry : JSON}
    (h : acceptedUser username password = some entry) :
    JSON.parse (JSON.stringify (deleteProp entry "password")) = .ok (deleteProp entry "password") ∧
    JSON.stringify (deleteProp entry "password") ≠ "" ∧
    deleteProp entry "password" ≠ .null := by
  rcases acceptedUser_cases h with ⟨_, _, hp⟩ | ⟨_, _, hp⟩
  · rw [hp]
    exact ⟨rfl, by decide, by simp [nehaProfile]⟩
  · rw [hp]
    exact ⟨rfl, by decide, by simp⟩

/-- C4: for every pair of inputs that `handleLogin` accepts, the login leaves
the session authenticated with a user, and `checkAuthStatus` on a fresh load
of any page with the snapshot of that login yields `isAuthenticated = true`
and a `currentUser` equal to the profile the login stored. -/
theorem login_restore_roundtrip (usernameInput passwordInput : String) (s page : AppState)
    (h : (acceptedUser (toLowerCase (trim usernameInput)) passwordInput).isSome = true) :
    (handleLogin usernameInput passwordInput s).2.isAuthenticated = true ∧
    (handleLogin usernameInput passwordInput s).2.currentUser ≠ .null ∧
    (checkAuthStatus (reload page (handleLogin usernameInput passwordInput s).2)).2.isAuthenticated
      = true ∧
    (checkAuthStatus (reload page (handleLogin usernameInput passwordInput s).2)).2.currentUser
      = (handleLogin usernameInput passwordInput s).2.currentUser := by
  obtain ⟨entry, hentry⟩ := Option.isSome_iff_exists.1 h
  have hlogin := handleLogin_accepted usernameInput passwordInput s entry hentry
  simp only [sessionOf, Prod.mk.injEq] at hlogin
  obtain ⟨hauth, huser, hstore⟩ := hlogin
  obtain ⟨hparse, hne, hnull⟩ := parse_stringify_demo_profile hentry
  have hrestored := checkAuthStatus_restores
    (reload page (handleLogin usernameInput passwordInput s).2)
    (JSON.stringify (deleteProp entry "password")) (deleteProp entry "password")
    (by
      show (handleLogin usernameInput passwordInput s).2.sessionStorage.getItem _ = _
      rw [hstore, Storage.getItem_setItem_ne _ _ (by decide), Storage.getItem_setItem_same])
    (by
      show (handleLogin usernameInput passwordInput s).2.sessionStorage.getItem _ = _
      rw [hstore, Storage.getItem_setItem_same])
    hne hparse
  exact ⟨hauth, huser ▸ hnull, hrestored.1, hrestored.2.trans huser.symm⟩

set_option maxRecDepth 100000 in
theorem login_restore_roundtrip_witness :
    (acceptedUser (toLowerCase (trim "  Neha ")) "neha123").isSome = true ∧
    (checkAuthStatus (reload initialState (handleLogin "  Neha " "neha123" initialState).2)).2.currentUser
      = nehaProfile :=
  ⟨by decide,
   (login_restore_roundtrip "  Neha " "neha123" initialState initialState (by decide)).2.2.2.trans
     rfl⟩

/-! ## Dispatch: the fallback branch -/

theorem updateAccountBalance_keeps_chat (balance : JSON) :
    Keeps (fun s => (s.chat, s.trace, s.spoken)) (updateAccountBalance balance) := by
  intro s
  unfold updateAccountBalance
  repeat' first | split | simp

theorem getMockResponse_keeps_chat (query : String) :
    Keeps (fun s => (s.chat, s.trace, s.spoken)) (getMockResponse query) := by
  unfold getMockResponse
  simp only []
  repeat' first
    | exact Keeps.bind (updateAccountBalance_keeps_chat _) fun _ => Keeps.pure _ _
    | exact Keeps.pure _ _
    | apply Keeps.ite

theorem speakText_str (text lang : String) (s : AppState) :
    (speakText (.str text) lang s).1 = .ok () ∧
    (speakText (.str text) lang s).2.chat = s.chat ∧
    (speakText (.str text) lang s).2.trace = s.trace ++ [Effect.speakText (.str text) lang] := by
  unfold speakText
  simp only [toStringJS]
  split <;> simp

theorem addBotMessage_str (text : String) (s : AppState) :
    addBotMessage (.str text) s = (.ok (), { s with chat := s.chat ++ [⟨.bot, text⟩] }) := by
  simp [addBotMessage, toStringJS]

theorem processVoiceQueryCatch_run (query : String) (s : AppState) :
    (processVoiceQueryCatch query s).1 = .ok () ∧
    (processVoiceQueryCatch query s).2.chat = s.chat ++ [⟨.bot, respondSpec query⟩] ∧
    (processVoiceQueryCatch query s).2.trace =
      s.trace ++ [Effect.speakText (.str (respondSpec query)) "en"] := by
  have hk := getMockResponse_keeps_chat query s
  simp only [Prod.mk.injEq] at hk
  obtain ⟨hchat, htrace, _⟩ := hk
  unfold processVoiceQueryCatch
  rw [JS.bind_eq, JS.andThen_of_ok (getMockResponse_value query s)]
  rw [JS.bind_eq, JS.andThen_of_ok (a := ()) (by rw [addBotMessage_str])]
  obtain ⟨hs1, hs2, hs3⟩ := speakText_str (respondSpec query) "en"
    (addBotMessage (.str (respondSpec query)) (getMockResponse query s).2).2
  rw [JS.bind_eq, JS.andThen_of_ok hs1]
  refine ⟨rfl, ?_, ?_⟩
  · show (speakText _ _ _).2.chat = _
    rw [hs2, addBotMessage_str, hchat]
  · show (speakText _ _ _).2.trace = _
    rw [hs3, addBotMessage_str, htrace]

theorem processVoiceQueryTry_failure (query : String) (now : Nat) (gateway : FetchOutcome)
    (s : AppState) (h : gateway = .rejected ∨ ∃ json, gateway = .response false json) :
    ∃ e, (processVoiceQueryTry query now gateway s).1 = .error e ∧
      (processVoiceQueryTry query now gateway s).2.chat = s.chat := by
  rcases h with h | ⟨json, h⟩ <;> subst h <;> cases hA : s.isAuthenticated <;>
    cases hU : getProp (some s.currentUser) "user_id" <;>
    simp [processVoiceQueryTry, processVoiceQuerySettle, JS.bind_eq, JS.pure_eq, JS.andThen, JS.get, JS.lift, JS.modify,
      JS.raise, JS.ret, hA, hU]

/-- C7: when the request to the gateway fails (the fetch rejects, or the
answer has a status that is not a success), `processVoiceQuery` returns
normally having appended exactly one bot message, the value of
`getMockResponse` on the query. -/
theorem processVoiceQuery_gateway_failure (query : String) (now : Nat) (gateway : FetchOutcome)
    (s : AppState) (h : gateway = .rejected ∨ ∃ json, gateway = .response false json) :
    (processVoiceQuery query now gateway s).1 = .ok () ∧
    ∃ answer, (getMockResponse query s).1 = .ok answer ∧
      (processVoiceQuery query now gateway s).2.chat = s.chat ++ [⟨.bot, answer⟩] := by
  obtain ⟨e, he, hchat⟩ := processVoiceQueryTry_failure query now gateway
    { s with botStatus := "Processing..." } h
  have hrun : processVoiceQuery query now gateway s =
      processVoiceQueryCatch query
        (processVoiceQueryTry query now gateway { s with botStatus := "Processing..." }).2 := by
    unfold processVoiceQuery
    rw [JS.bind_eq]
    show JS.tryCatch _ _ _ = _
    rw [JS.tryCatch_of_error he]
  obtain ⟨hok, hc, _⟩ := processVoiceQueryCatch_run query
    (processVoiceQueryTry query now gateway { s with botStatus := "Processing..." }).2
  refine ⟨by rw [hrun, hok], respondSpec query, getMockResponse_value query s, ?_⟩
  rw [hrun, hc, hchat]

theorem processVoiceQuery_gateway_failure_witness :
    (processVoiceQuery "What's my balance?" 1700000000000 .rejected nehaSession).1 = .ok () ∧
    ∃ answer, (getMockResponse "What's my balance?" nehaSession).1 = .ok answer ∧
      (processVoiceQuery "What's my balance?" 1700000000000 .rejected nehaSession).2.chat
        = nehaSession.chat ++ [⟨.bot, answer⟩] :=
  processVoiceQuery_gateway_failure "What's my balance?" 1700000000000 .rejected nehaSession
    (Or.inl rfl)

/-! ## Dispatch: an answer without response text -/

theorem getProp_user_id_ok (user : JSON) (h : user ≠ .null) :
    ∃ r, getProp (some user) "user_id" = .ok r := by
  cases user <;> simp_all [getProp]

theorem whenTruthy_falsy (v : Option JSON) (body : JSON → JS Unit) (h : truthy v = false) :
    whenTruthy v body = JS.ret () := by
  unfold whenTruthy
  cases v with
  | none => rfl
  | some value => simp [h, JS.pure_eq]

theorem processVoiceQuery_no_response_text_aux (query : String) (now : Nat) (result : JSON)
    (s : AppState) (response : Option JSON)
    (hreq : s.isAuthenticated = true → s.currentUser ≠ .null)
    (hresp : getProp (some result) "response" = .ok response)
    (hfalsy : truthy response = false) :
    ∃ request, processVoiceQuery query now (.response true (some result)) s =
      (.ok (), { s with
        botStatus := "Ready to help"
        trace := s.trace ++ [Effect.fetchVoiceBanking request] }) := by
  cases hA : s.isAuthenticated
  · refine ⟨⟨query, some .null, "session_" ++ natToString now,
      if s.translationsLoaded then getCurrentLanguage s else "en"⟩, ?_⟩
    simp [processVoiceQuery, processVoiceQueryTry, processVoiceQuerySettle, processVoiceQueryApply, JS.bind_eq, JS.pure_eq, JS.andThen, JS.get,
      JS.lift, JS.modify, JS.raise, JS.ret, JS.tryCatch, getCurrentLanguage, hA, hresp, whenTruthy_falsy _ _ hfalsy]
  · obtain ⟨r, hr⟩ := getProp_user_id_ok s.currentUser (hreq hA)
    refine ⟨⟨query, r, "session_" ++ natToString now,
      if s.translationsLoaded then getCurrentLanguage s else "en"⟩, ?_⟩
    simp [processVoiceQuery, processVoiceQueryTry, processVoiceQuerySettle, processVoiceQueryApply, JS.bind_eq, JS.pure_eq, JS.andThen, JS.get,
      JS.lift, JS.modify, JS.raise, JS.ret, JS.tryCatch, getCurrentLanguage, hA, hr, hresp,
      whenTruthy_falsy _ _ hfalsy]

set_option maxRecDepth 100000 in
/-- C8, counterexample: a successful answer without `response`, or with an
empty one, leaves the chat empty although the fallback responder has an answer
for the query. -/
theorem processVoiceQuery_empty_answer_silent :
    (processVoiceQuery "What's my balance?" 0 (.response true (some (.obj []))) nehaSession).2.chat
      = [] ∧
    (processVoiceQuery "What's my balance?" 0
        (.response true (some (.obj [("response", .str "")]))) nehaSession).2.chat = [] ∧
    (processVoiceQuery "What's my balance?" 0 (.response true (some (.obj []))) nehaSession).1
      = .ok () ∧
    (getMockResponse "What's my balance?" nehaSession).1 = .ok balanceAnswer :=
  ⟨rfl, rfl, rfl, rfl⟩

/-- C8 (amended): when the gateway answers with a success status and a JSON
body, not `null`, whose `response` field is missing or empty (falsy), and the
request could be built, `processVoiceQuery` returns normally and changes
nothing but the status line, set to `Ready to help`, and the record of the
request it sent: no bot message is appended, the fallback responder is not
called, nothing is spoken and no balance or transaction is applied. -/
theorem processVoiceQuery_no_response_text (query : String) (now : Nat) (result : JSON)
    (s : AppState) (response : Option JSON)
    (hreq : s.isAuthenticated = true → s.currentUser ≠ .null)
    (hresp : getProp (some result) "response" = .ok response)
    (hfalsy : truthy response = false) :
    ∃ request, processVoiceQuery query now (.response true (some result)) s =
      (.ok (), { s with
        botStatus := "Ready to help"
        trace := s.trace ++ [Effect.fetchVoiceBanking request] }) :=
  processVoiceQuery_no_response_text_aux query now result s response hreq hresp hfalsy

theorem processVoiceQuery_no_response_text_witness :
    ∃ request, processVoiceQuery "What's my balance?" 0
        (.response true (some (.obj [("account_balance", .num ⟨200, 0⟩)]))) nehaSession =
      (.ok (), { nehaSession with
        botStatus := "Ready to help"
        trace := nehaSession.trace ++ [Effect.fetchVoiceBanking request] }) :=
  processVoiceQuery_no_response_text "What's my balance?" 0
    (.obj [("account_balance", .num ⟨200, 0⟩)]) nehaSession none
    (fun _ => by simp [nehaSession, nehaProfile]) rfl rfl

/-! ## Dispatch: the success branch -/

set_option maxRecDepth 100000 in
/-- C9: with `neha` logged in (balance 125000) and the answer
`response: "Your balance is zero", account_balance: 0`, `processVoiceQuery`
shows the response text and returns normally, but the balance of the user and
the snapshot stay as they were, where the claim asks for balance 0: the test
`if (result.account_balance)` is false for 0.  The same call with
`account_balance: 200` does set the balance and the snapshot. -/
theorem processVoiceQuery_zero_balance_skipped :
    (processVoiceQuery "balance" 0 (.response true (some zeroBalanceBody)) nehaSession).1 = .ok () ∧
    (processVoiceQuery "balance" 0 (.response true (some zeroBalanceBody)) nehaSession).2.chat
      = [⟨.bot, "Your balance is zero"⟩] ∧
    getProp (some (processVoiceQuery "balance" 0 (.response true (some zeroBalanceBody))
      nehaSession).2.currentUser) "balance" = .ok (some (.num ⟨125000, 0⟩)) ∧
    (processVoiceQuery "balance" 0 (.response true (some zeroBalanceBody))
      nehaSession).2.sessionStorage = nehaSession.sessionStorage ∧
    getProp (some (processVoiceQuery "balance" 0 (.response true (some balance200Body))
      nehaSession).2.currentUser) "balance" = .ok (some (.num ⟨200, 0⟩)) ∧
    (processVoiceQuery "balance" 0 (.response true (some balance200Body))
      nehaSession).2.sessionStorage.getItem "currentUser"
      = some (JSON.stringify (setProp nehaProfile "balance" (.num ⟨200, 0⟩))) :=
  ⟨rfl, rfl, rfl, rfl, rfl, rfl⟩

set_option maxRecDepth 100000 in
/-- C10: the code at the failing input.  The answer `Hi` comes with a
transaction that has no amount and the language is `hi`: the chat gets `Hi`
and then the fallback sentence, and `speakText` is never called with `Hi` and
`hi`; its one call has the fallback sentence and `en`. -/
theorem processVoiceQuery_malformed_history :
    (processVoiceQuery "hello" 0 (.response true (some noAmountBody))
        { nehaSession with currentLanguage := "hi" }).2.chat
      = [⟨.bot, "Hi"⟩, ⟨.bot, defaultAnswer⟩] ∧
    (processVoiceQuery "hello" 0 (.response true (some noAmountBody))
        { nehaSession with currentLanguage := "hi" }).2.trace
      = [Effect.fetchVoiceBanking ⟨"hello", some (.str "neha"), "session_0", "hi"⟩,
         Effect.speakText (.str defaultAnswer) "en"] :=
  ⟨rfl, rfl⟩


theorem processVoiceQueryTry_answered (query : String) (now : Nat) (result : JSON) (s : AppState)
    (hreq : s.isAuthenticated = true → s.currentUser ≠ .null) :
    ∃ user_id, processVoiceQueryTry query now (.response true (some result)) s =
      processVoiceQueryApply result (if s.translationsLoaded then getCurrentLanguage s else "en")
        { s with trace := s.trace ++ [Effect.fetchVoiceBanking
          ⟨query, user_id, "session_" ++ natToString now,
            if s.translationsLoaded then getCurrentLanguage s else "en"⟩] } := by
  cases hA : s.isAuthenticated
  · refine ⟨some .null, ?_⟩
    simp [processVoiceQueryTry, processVoiceQuerySettle, JS.bind_eq, JS.pure_eq, JS.andThen, JS.get, JS.lift, JS.modify,
      JS.ret, hA]
  · obtain ⟨r, hr⟩ := getProp_user_id_ok s.currentUser (hreq hA)
    refine ⟨r, ?_⟩
    simp [processVoiceQueryTry, processVoiceQuerySettle, JS.bind_eq, JS.pure_eq, JS.andThen, JS.get, JS.lift, JS.modify,
      JS.ret, hA, hr]

theorem isOptionalText_toString {v : Option JSON} (h : isOptionalText v = true) :
    (v.all fun w => (toStringJS w).isSome) = true := by
  cases v with
  | none => rfl
  | some w => cases w <;> simp_all [isOptionalText, toStringJS]

theorem isTransaction_renderable {txn : JSON} (h : isTransaction txn = true) :
    renderable txn = true := by
  cases txn with
  | obj fields =>
    simp only [isTransaction, Bool.and_eq_true] at h
    obtain ⟨⟨⟨h1, h2⟩, h3⟩, h4⟩ := h
    simp only [renderable, getProp]
    cases ha : lookupField "amount" fields with
    | none => simp [ha] at h4
    | some amount =>
      cases amount <;> simp [ha] at h4
      simp [isOptionalText_toString h1, isOptionalText_toString h2, isOptionalText_toString h3,
        toLocaleStringOk]
  | _ => simp [isTransaction] at h

theorem appendTransactions_keeps (items : List JSON) (s : AppState) :
    (fun t : AppState => (t.chat, t.trace, t.spoken)) (appendTransactions items s).2
      = (s.chat, s.trace, s.spoken) := by
  induction items generalizing s with
  | nil => rfl
  | cons txn rest ih =>
    unfold appendTransactions
    split
    · rw [ih]
    · rfl

theorem appendTransactions_ok (items : List JSON) (s : AppState)
    (h : items.all isTransaction = true) : (appendTransactions items s).1 = .ok () := by
  induction items generalizing s with
  | nil => rfl
  | cons txn rest ih =>
    simp only [List.all_cons, Bool.and_eq_true] at h
    unfold appendTransactions
    rw [if_pos (isTransaction_renderable h.1)]
    exact ih _ h.2

theorem updateTransactionHistory_keeps (transactions : Option JSON) :
    Keeps (fun s => (s.chat, s.trace, s.spoken)) (updateTransactionHistory transactions) := by
  intro s
  unfold updateTransactionHistory
  split
  · rfl
  · split
    · rfl
    · split
      · exact appendTransactions_keeps _ _
      · rfl

theorem updateTransactionHistory_ok (list : JSON) (s : AppState)
    (h : isOptionalHistory (some list) = true) :
    (updateTransactionHistory (some list) s).1 = .ok () := by
  cases list with
  | arr items =>
    simp only [isOptionalHistory] at h
    unfold updateTransactionHistory
    simp only []
    split
    · rfl
    · exact appendTransactions_ok _ _ h
  | _ => simp [isOptionalHistory] at h

theorem whenTruthy_keeps {β : Type} {view : AppState → β} (v : Option JSON) {body : JSON → JS Unit}
    (h : ∀ x, Keeps view (body x)) : Keeps view (whenTruthy v body) := by
  unfold whenTruthy
  cases v with
  | none => exact Keeps.pure _ _
  | some value => exact Keeps.ite (h value) (Keeps.pure _ _)

theorem whenTruthy_ok (v : Option JSON) {body : JSON → JS Unit} (s : AppState)
    (h : ∀ x, v = some x → (body x s).1 = .ok ()) : (whenTruthy v body s).1 = .ok () := by
  unfold whenTruthy
  cases v with
  | none => rfl
  | some value =>
    simp only []
    split
    · exact h value rfl
    · rfl

theorem whenTruthy_truthy {v : JSON} (body : JSON → JS Unit) (h : truthy (some v) = true) :
    whenTruthy (some v) body = body v := by
  simp [whenTruthy, h]

theorem updateAccountBalance_optional_ok (v : Option JSON) (s : AppState)
    (h : isOptionalNumber v = true) : (whenTruthy v updateAccountBalance s).1 = .ok () := by
  apply whenTruthy_ok
  intro x hx
  subst hx
  cases x <;> simp [isOptionalNumber] at h
  exact updateAccountBalance_num _ s

theorem processVoiceQueryApply_answer (fields : List (String × JSON)) (lang r : String)
    (s : AppState) :
    let answer : JS Unit := do
      addBotMessage (.str r)
      let account_balance ← JS.lift (getProp (some (.obj fields)) "account_balance")
      whenTruthy account_balance updateAccountBalance
      let transaction_history ← JS.lift (getProp (some (.obj fields)) "transaction_history")
      whenTruthy transaction_history fun list => updateTransactionHistory (some list)
      speakText (.str r) lang
    isOptionalNumber (lookupField "account_balance" fields) = true →
    isOptionalHistory (lookupField "transaction_history" fields) = true →
    (answer s).1 = .ok () ∧ (answer s).2.chat = s.chat ++ [⟨.bot, r⟩] ∧
      (answer s).2.trace = s.trace ++ [Effect.speakText (.str r) lang] := by
  intro answer hbal hhist
  have h1 : (addBotMessage (.str r) s).1 = .ok () := by rw [addBotMessage_str]
  have hb := updateAccountBalance_optional_ok (lookupField "account_balance" fields)
    (addBotMessage (.str r) s).2 hbal
  have hbk0 : Keeps (fun s : AppState => (s.chat, s.trace, s.spoken))
      (whenTruthy (lookupField "account_balance" fields) updateAccountBalance) :=
    whenTruthy_keeps _ updateAccountBalance_keeps_chat
  have hbk := hbk0 (addBotMessage (.str r) s).2
  have ht : (whenTruthy (lookupField "transaction_history" fields)
      (fun list => updateTransactionHistory (some list))
      (whenTruthy (lookupField "account_balance" fields) updateAccountBalance
        (addBotMessage (.str r) s).2).2).1 = .ok () := by
    apply whenTruthy_ok
    intro x hx
    exact updateTransactionHistory_ok x _ (hx ▸ hhist)
  have htk0 : Keeps (fun s : AppState => (s.chat, s.trace, s.spoken))
      (whenTruthy (lookupField "transaction_history" fields)
        fun list => updateTransactionHistory (some list)) :=
    whenTruthy_keeps _ fun x => updateTransactionHistory_keeps (some x)
  have htk := htk0
    (whenTruthy (lookupField "account_balance" fields) updateAccountBalance
        (addBotMessage (.str r) s).2).2
  obtain ⟨hs1, hs2, hs3⟩ := speakText_str r lang
    (whenTruthy (lookupField "transaction_history" fields)
      (fun list => updateTransactionHistory (some list))
      (whenTruthy (lookupField "account_balance" fields) updateAccountBalance
        (addBotMessage (.str r) s).2).2).2
  have hrun : answer s = speakText (.str r) lang
      (whenTruthy (lookupField "transaction_history" fields)
        (fun list => updateTransactionHistory (some list))
        (whenTruthy (lookupField "account_balance" fields) updateAccountBalance
          (addBotMessage (.str r) s).2).2).2 := by
    refine (JS.andThen_of_ok h1).trans ?_
    refine (JS.andThen_of_ok (m := JS.lift (getProp (some (.obj fields)) "account_balance"))
      (a := lookupField "account_balance" fields) rfl).trans ?_
    refine (JS.andThen_of_ok hb).trans ?_
    refine (JS.andThen_of_ok (m := JS.lift (getProp (some (.obj fields)) "transaction_history"))
      (a := lookupField "transaction_history" fields) rfl).trans ?_
    refine (JS.andThen_of_ok ht).trans ?_
    rfl
  simp only [Prod.mk.injEq] at hbk htk
  refine ⟨by rw [hrun, hs1], ?_, ?_⟩
  · rw [hrun, hs2, htk.1, hbk.1, addBotMessage_str]
  · rw [hrun, hs3, htk.2.1, hbk.2.1, addBotMessage_str]

theorem processVoiceQueryApply_run (fields : List (String × JSON)) (lang r : String)
    (s : AppState) (hresp : lookupField "response" fields = some (.str r)) (hne : r ≠ "")
    (hbal : isOptionalNumber (lookupField "account_balance" fields) = true)
    (hhist : isOptionalHistory (lookupField "transaction_history" fields) = true) :
    (processVoiceQueryApply (.obj fields) lang s).1 = .ok () ∧
    (processVoiceQueryApply (.obj fields) lang s).2.chat = s.chat ++ [⟨.bot, r⟩] ∧
    (processVoiceQueryApply (.obj fields) lang s).2.trace
      = s.trace ++ [Effect.speakText (.str r) lang] := by
  obtain ⟨ha1, ha2, ha3⟩ := processVoiceQueryApply_answer fields lang r s hbal hhist
  have htruthy : truthy (some (.str r)) = true := by simp [truthy, hne]
  have hrun : processVoiceQueryApply (.obj fields) lang s = JS.modify
      (fun s1 => { s1 with botStatus := "Ready to help" })
      ((do
        addBotMessage (.str r)
        let account_balance ← JS.lift (getProp (some (.obj fields)) "account_balance")
        whenTruthy account_balance updateAccountBalance
        let transaction_history ← JS.lift (getProp (some (.obj fields)) "transaction_history")
        whenTruthy transaction_history fun list => updateTransactionHistory (some list)
        speakText (.str r) lang : JS Unit) s).2 := by
    unfold processVoiceQueryApply
    refine (JS.andThen_of_ok (m := JS.lift (getProp (some (.obj fields)) "response"))
      (a := some (.str r)) (by simp [JS.lift, getProp, hresp])).trans ?_
    simp only [whenTruthy_truthy _ htruthy]
    exact JS.andThen_of_ok ha1
  rw [hrun]
  exact ⟨rfl, ha2, ha3⟩

/-- The success branch on payloads of the data model: for every successful
gateway result with a non-empty response text `r` whose `account_balance`, when
present, is a number and whose `transaction_history`, when present, is a list
of transactions, and for every active language, `processVoiceQuery` returns
normally, appends `r` as the one bot message and calls `speakText` once, with
`r` and the language that `getCurrentLanguage` returns at dispatch; the same
language is sent in the request. -/
theorem processVoiceQuery_success (query : String) (now : Nat) (fields : List (String × JSON))
    (s : AppState) (r : String)
    (hreq : s.isAuthenticated = true → s.currentUser ≠ .null)
    (hlang : s.translationsLoaded = true)
    (hresp : lookupField "response" fields = some (.str r)) (hne : r ≠ "")
    (hbal : isOptionalNumber (lookupField "account_balance" fields) = true)
    (hhist : isOptionalHistory (lookupField "transaction_history" fields) = true) :
    (processVoiceQuery query now (.response true (some (.obj fields))) s).1 = .ok () ∧
    (processVoiceQuery query now (.response true (some (.obj fields))) s).2.chat
      = s.chat ++ [⟨.bot, r⟩] ∧
    ∃ request, request.language = getCurrentLanguage s ∧
      (processVoiceQuery query now (.response true (some (.obj fields))) s).2.trace
        = s.trace ++ [Effect.fetchVoiceBanking request,
            Effect.speakText (.str r) (getCurrentLanguage s)] := by
  obtain ⟨user_id, htry⟩ := processVoiceQueryTry_answered query now (.obj fields)
    { s with botStatus := "Processing..." } hreq
  have hl : (if ({ s with botStatus := "Processing..." } : AppState).translationsLoaded = true
      then getCurrentLanguage { s with botStatus := "Processing..." } else "en")
      = getCurrentLanguage s := by
    show (if s.translationsLoaded = true then _ else _) = _
    rw [if_pos hlang]
    rfl
  rw [hl] at htry
  obtain ⟨h1, h2, h3⟩ := processVoiceQueryApply_run fields (getCurrentLanguage s) r
    { s with
      botStatus := "Processing..."
      trace := s.trace ++ [Effect.fetchVoiceBanking
        ⟨query, user_id, "session_" ++ natToString now, getCurrentLanguage s⟩] }
    hresp hne hbal hhist
  rw [← htry] at h1 h2 h3
  have hrun : processVoiceQuery query now (.response true (some (.obj fields))) s =
      (.ok (), (processVoiceQueryTry query now (.response true (some (.obj fields)))
        { s with botStatus := "Processing..." }).2) := by
    unfold processVoiceQuery
    exact JS.tryCatch_of_ok h1
  rw [hrun]
  refine ⟨rfl, h2, ⟨query, user_id, "session_" ++ natToString now, getCurrentLanguage s⟩, rfl, ?_⟩
  rw [h3]
  simp

set_option maxRecDepth 100000 in
theorem processVoiceQuery_success_witness :
    (processVoiceQuery "hello" 0 (.response true (some balance200Body))
        { nehaSession with currentLanguage := "hi" }).2.chat = [⟨.bot, "Hi"⟩] ∧
    ∃ request, request.language = "hi" ∧
      (processVoiceQuery "hello" 0 (.response true (some balance200Body))
        { nehaSession with currentLanguage := "hi" }).2.trace
        = [Effect.fetchVoiceBanking request, Effect.speakText (.str "Hi") "hi"] :=
  (processVoiceQuery_success "hello" 0
    [("response", .str "Hi"), ("account_balance", .num ⟨200, 0⟩)]
    { nehaSession with currentLanguage := "hi" } "Hi"
    (fun _ => by simp [nehaSession, nehaProfile]) rfl rfl (by decide) rfl rfl).2

/-! ## Login table -/

theorem acceptedUser_none {username password : String}
    (h1 : ¬ (username = "neha" ∧ password = "neha123"))
    (h2 : ¬ (username = "niyati" ∧ password = "niyati123")) :
    acceptedUser username password = none := by
  cases h : acceptedUser username password with
  | none => rfl
  | some entry =>
    rcases acceptedUser_cases h with ⟨hu, hp, _⟩ | ⟨hu, hp, _⟩
    · exact absurd ⟨hu, hp⟩ h1
    · exact absurd ⟨hu, hp⟩ h2

theorem handleLogin_rejected (usernameInput passwordInput : String) (s : AppState)
    (h : acceptedUser (toLowerCase (trim usernameInput)) passwordInput = none) :
    handleLogin usernameInput passwordInput s =
      (.ok (), { s with trace := s.trace ++ [Effect.alert loginFailedMessage] }) := by
  unfold handleLogin
  simp only [h]
  rfl

set_option maxRecDepth 100000 in
/-- C11, counterexample: the pairs `NEHA`, `neha123` and `  Neha `, `neha123`
are not entries of the demo table, whose only names are `neha` and `niyati`,
yet `handleLogin` accepts them: from the initial state it sets
`isAuthenticated`, makes the profile of `neha` the current user and writes the
snapshot. -/
theorem handleLogin_uppercase_name :
    lookupField "NEHA" users = none ∧ lookupField "  Neha " users = none ∧
    users.map Prod.fst = ["neha", "niyati"] ∧
    initialState.isAuthenticated = false ∧
    (handleLogin "NEHA" "neha123" initialState).2.isAuthenticated = true ∧
    (handleLogin "NEHA" "neha123" initialState).2.currentUser = nehaProfile ∧
    (handleLogin "NEHA" "neha123" initialState).2.sessionStorage
      = [("isAuthenticated", "true"), ("currentUser", JSON.stringify nehaProfile)] ∧
    (handleLogin "  Neha " "neha123" initialState).2.isAuthenticated = true ∧
    (handleLogin "  Neha " "neha123" initialState).2.currentUser = nehaProfile :=
  ⟨rfl, rfl, rfl, rfl, rfl, rfl, rfl, rfl, rfl⟩

/-- C11 (amended): `handleLogin` with `neha` and `neha123` sets
`isAuthenticated` and a current user named `Neha Sharma` with balance 125000;
for every pair of a user name (as `handleLogin` reads it: trimmed and
lower-cased) and a password that is not an entry of the demo table, it leaves
`isAuthenticated`, `currentUser` and the snapshot as they were and reports the
failure. -/
theorem handleLogin_table (s : AppState) :
    ((handleLogin "neha" "neha123" s).2.isAuthenticated = true ∧
      getProp (some (handleLogin "neha" "neha123" s).2.currentUser) "name"
        = .ok (some (.str "Neha Sharma")) ∧
      getProp (some (handleLogin "neha" "neha123" s).2.currentUser) "balance"
        = .ok (some (.num ⟨125000, 0⟩))) ∧
    (∀ usernameInput passwordInput : String,
      ¬ (toLowerCase (trim usernameInput) = "neha" ∧ passwordInput = "neha123") →
      ¬ (toLowerCase (trim usernameInput) = "niyati" ∧ passwordInput = "niyati123") →
      sessionOf (handleLogin usernameInput passwordInput s).2 = sessionOf s ∧
      (handleLogin usernameInput passwordInput s).2.trace
        = s.trace ++ [Effect.alert loginFailedMessage]) := by
  constructor
  · have hacc : acceptedUser (toLowerCase (trim "neha")) "neha123" = some (.obj
        [ ("password", .str "neha123"),
          ("user_id", .str "neha"),
          ("name", .str "Neha Sharma"),
          ("account_number", .str "NGB001234567890"),
          ("balance", .num ⟨125000, 0⟩),
          ("phone", .str "+91-9876543210"),
          ("email", .str "neha.sharma@email.com") ]) := rfl
    have h := handleLogin_accepted "neha" "neha123" s _ hacc
    simp only [sessionOf, Prod.mk.injEq] at h
    obtain ⟨ha, hu, _⟩ := h
    rw [hu]
    exact ⟨ha, rfl, rfl⟩
  · intro usernameInput passwordInput h1 h2
    rw [handleLogin_rejected usernameInput passwordInput s (acceptedUser_none h1 h2)]
    exact ⟨rfl, rfl⟩

theorem handleLogin_table_witness :
    sessionOf (handleLogin "neha" "neha12" nehaSession).2 = sessionOf nehaSession ∧
    (handleLogin "neha" "neha12" nehaSession).2.trace
      = nehaSession.trace ++ [Effect.alert loginFailedMessage] :=
  (handleLogin_table nehaSession).2 "neha" "neha12" (by decide) (by decide)

/-! ## The balance rule and the session -/

theorem lookupField_setField_same (key : String) (v : JSON) (fields : List (String × JSON)) :
    lookupField key (setField key v fields) = some v := by
  induction fields with
  | nil => simp [setField, lookupField]
  | cons kv rest ih =>
    obtain ⟨k, w⟩ := kv
    by_cases h : k = key
    · simp [setField, lookupField, h]
    · simp [setField, lookupField, h, ih]

theorem updateAccountBalance_object (n : JSNumber) (s : AppState) (fields : List (String × JSON))
    (h : s.currentUser = .obj fields) :
    (updateAccountBalance (.num n) s).2.currentUser = .obj (setField "balance" (.num n) fields) ∧
    (updateAccountBalance (.num n) s).2.sessionStorage =
      s.sessionStorage.setItem "currentUser"
        (JSON.stringify (.obj (setField "balance" (.num n) fields))) ∧
    (updateAccountBalance (.num n) s).2.isAuthenticated = s.isAuthenticated := by
  unfold updateAccountBalance
  simp only [toLocaleStringOk]
  cases hb : s.hasBalanceElement <;> simp [h, truthy, setProp]

theorem speakText_keeps_session (text : JSON) (lang : String) :
    Keeps sessionOf (speakText text lang) := by
  intro s
  unfold speakText
  repeat' first | split | simp [sessionOf]

theorem processVoiceQueryCatch_session (query : String) (s : AppState) :
    sessionOf (processVoiceQueryCatch query s).2 = sessionOf (getMockResponse query s).2 := by
  unfold processVoiceQueryCatch
  rw [JS.bind_eq, JS.andThen_of_ok (getMockResponse_value query s)]
  have hk : Keeps sessionOf (addBotMessage (.str (respondSpec query)) >>= fun _ =>
      speakText (.str (respondSpec query)) "en" >>= fun _ =>
      JS.modify fun s1 => { s1 with botStatus := "Ready to help" }) := by
    apply Keeps.bind (addBotMessage_keeps_session _)
    intro _
    apply Keeps.bind (speakText_keeps_session _ _)
    intro _
    exact Keeps.modify fun _ => rfl
  exact hk _

theorem getMockResponse_balance_state (query : String) (s : AppState)
    (h : includes (toLowerCase query) "balance" = true) :
    (getMockResponse query s).2 = (updateAccountBalance (.num demoBalance) s).2 := by
  unfold getMockResponse
  simp only [h, if_true]
  rw [JS.bind_eq, JS.andThen_of_ok (updateAccountBalance_num demoBalance s)]
  rfl

theorem getMockResponse_other_state (query : String) (s : AppState)
    (h : includes (toLowerCase query) "balance" = false) :
    (getMockResponse query s).2 = s := by
  unfold getMockResponse
  simp only [h, Bool.false_eq_true, if_false]
  split_ifs <;> rfl

theorem processVoiceQueryTry_failure_session (query : String) (now : Nat)
    (gateway : FetchOutcome) (s : AppState)
    (h : gateway = .rejected ∨ ∃ json, gateway = .response false json) :
    sessionOf (processVoiceQueryTry query now gateway s).2 = sessionOf s := by
  rcases h with h | ⟨json, h⟩ <;> subst h <;> cases hA : s.isAuthenticated <;>
    cases hU : getProp (some s.currentUser) "user_id" <;>
    simp [processVoiceQueryTry, processVoiceQuerySettle, JS.bind_eq, JS.pure_eq, JS.andThen, JS.get, JS.lift, JS.modify,
      JS.raise, JS.ret, sessionOf, hA, hU]

/-- C12: for a logged-in user and the query `What's my balance?`, when the
gateway cannot be reached (or answers with a failure status),
`processVoiceQuery` appends the balance sentence as the one bot message, and
afterwards the balance of the user is 15750.50, whatever it was, and the
snapshot is the serialisation of that user. -/
theorem processVoiceQuery_balance_fallback (now : Nat) (gateway : FetchOutcome) (s : AppState)
    (fields : List (String × JSON))
    (hgw : gateway = .rejected ∨ ∃ json, gateway = .response false json)
    (hauth : s.isAuthenticated = true) (huser : s.currentUser = .obj fields) :
    (processVoiceQuery "What's my balance?" now gateway s).2.chat = s.chat ++ [⟨.bot,
      "Your current account balance is ₹15,750.50. Is there anything else I can help you with?"⟩]
      ∧
    (processVoiceQuery "What's my balance?" now gateway s).2.isAuthenticated = true ∧
    getProp (some (processVoiceQuery "What's my balance?" now gateway s).2.currentUser) "balance"
      = .ok (some (.num ⟨157505, 1⟩)) ∧
    (processVoiceQuery "What's my balance?" now gateway s).2.sessionStorage.getItem "currentUser"
      = some (JSON.stringify
          (processVoiceQuery "What's my balance?" now gateway s).2.currentUser) := by
  obtain ⟨e, he, hchat⟩ := processVoiceQueryTry_failure "What's my balance?" now gateway
    { s with botStatus := "Processing..." } hgw
  have hsess := processVoiceQueryTry_failure_session "What's my balance?" now gateway
    { s with botStatus := "Processing..." } hgw
  have hrun : processVoiceQuery "What's my balance?" now gateway s =
      processVoiceQueryCatch "What's my balance?"
        (processVoiceQueryTry "What's my balance?" now gateway
          { s with botStatus := "Processing..." }).2 := by
    unfold processVoiceQuery
    rw [JS.bind_eq]
    show JS.tryCatch _ _ _ = _
    rw [JS.tryCatch_of_error he]
  obtain ⟨_, hc, _⟩ := processVoiceQueryCatch_run "What's my balance?"
    (processVoiceQueryTry "What's my balance?" now gateway
      { s with botStatus := "Processing..." }).2
  have hq : includes (toLowerCase "What's my balance?") "balance" = true := by decide
  have hans : respondSpec "What's my balance?" = balanceAnswer := by
    rw [respondSpec_eq, if_pos hq]
  have hcs := processVoiceQueryCatch_session "What's my balance?"
    (processVoiceQueryTry "What's my balance?" now gateway
      { s with botStatus := "Processing..." }).2
  rw [getMockResponse_balance_state _ _ hq] at hcs
  simp only [sessionOf, Prod.mk.injEq] at hsess hcs
  obtain ⟨hs1, hs2, hs3⟩ := hsess
  obtain ⟨hu1, hu2, hu3⟩ := updateAccountBalance_object demoBalance
    (processVoiceQueryTry "What's my balance?" now gateway
      { s with botStatus := "Processing..." }).2 fields (hs2.trans huser)
  refine ⟨?_, ?_, ?_, ?_⟩
  · rw [hrun, hc, hchat, hans]; rfl
  · rw [hrun, hcs.1, hu3, hs1]; exact hauth
  · rw [hrun, hcs.2.1, hu1]
    simp only [getProp, lookupField_setField_same]
    rfl
  · rw [hrun, hcs.2.2, hcs.2.1, hu2, hu1, Storage.getItem_setItem_same]

set_option maxRecDepth 100000 in
theorem processVoiceQuery_balance_fallback_witness :
    getProp (some (processVoiceQuery "What's my balance?" 0 .rejected nehaSession).2.currentUser)
      "balance" = .ok (some (.num ⟨157505, 1⟩)) ∧
    ((processVoiceQuery "What's my balance?" 0 .rejected nehaSession).2.sessionStorage.getItem
      "currentUser").map JSON.parse
      = some (.ok (setProp nehaProfile "balance" (.num ⟨157505, 1⟩))) :=
  ⟨(processVoiceQuery_balance_fallback 0 .rejected nehaSession _ (Or.inl rfl) rfl rfl).2.2.1,
   rfl⟩

/-! ## Effects of the fallback responder -/

set_option maxRecDepth 100000 in
/-- C16, counterexample: on `What's my balance?` with `neha` logged in,
`getMockResponse` changes the balance of the user from 125000 to 15750.50 and
rewrites the snapshot. -/
theorem getMockResponse_writes_balance :
    getProp (some nehaSession.currentUser) "balance" = .ok (some (.num ⟨125000, 0⟩)) ∧
    getProp (some (getMockResponse "What's my balance?" nehaSession).2.currentUser) "balance"
      = .ok (some (.num ⟨157505, 1⟩)) ∧
    (getMockResponse "What's my balance?" nehaSession).2.sessionStorage
      ≠ nehaSession.sessionStorage :=
  ⟨rfl, rfl, by decide⟩

/-- C16 (amended): the result of `getMockResponse` depends only on the text.
For a text whose lower-cased form does not contain `balance` the call leaves
the whole state, so the session and the snapshot, unchanged.  For a text that
contains `balance` the call runs `updateAccountBalance(15750.50)`: with a user
present, the balance of the user becomes 15750.50 and the snapshot is
rewritten with the serialisation of that user. -/
theorem getMockResponse_effects (query : String) (s : AppState) :
    (∀ other : AppState, (getMockResponse query other).1 = (getMockResponse query s).1) ∧
    (¬ "balance".data <:+: (toLowerCase query).data → (getMockResponse query s).2 = s) ∧
    ("balance".data <:+: (toLowerCase query).data →
      (getMockResponse query s).2 = (updateAccountBalance (.num ⟨157505, 1⟩) s).2 ∧
      ∀ fields, s.currentUser = .obj fields →
        getProp (some (getMockResponse query s).2.currentUser) "balance"
          = .ok (some (.num ⟨157505, 1⟩)) ∧
        (getMockResponse query s).2.sessionStorage =
          s.sessionStorage.setItem "currentUser"
            (JSON.stringify (getMockResponse query s).2.currentUser)) := by
  refine ⟨fun other => ?_, fun h => ?_, fun h => ?_⟩
  · rw [getMockResponse_value, getMockResponse_value]
  · exact getMockResponse_other_state query s (includes_eq_false h)
  · have hs := getMockResponse_balance_state query s ((includes_iff _ _).2 h)
    refine ⟨hs, fun fields hu => ?_⟩
    obtain ⟨h1, h2, _⟩ := updateAccountBalance_object demoBalance s fields hu
    rw [hs]
    constructor
    · show getProp (some (updateAccountBalance (.num demoBalance) s).2.currentUser) _ = _
      rw [h1]
      simp only [getProp, lookupField_setField_same]
      rfl
    · show (updateAccountBalance (.num demoBalance) s).2.sessionStorage = _
      rw [h2]
      show _ = s.sessionStorage.setItem "currentUser"
        (JSON.stringify (updateAccountBalance (.num demoBalance) s).2.currentUser)
      rw [h1]

theorem getMockResponse_effects_witness :
    (getMockResponse "Any loan offers?" nehaSession).2 = nehaSession ∧
    (getMockResponse "BALANCE please" nehaSession).2
      = (updateAccountBalance (.num ⟨157505, 1⟩) nehaSession).2 :=
  ⟨(getMockResponse_effects "Any loan offers?" nehaSession).2.1
      (fun h => absurd ((includes_iff _ _).2 h) (by decide)),
   ((getMockResponse_effects "BALANCE please" nehaSession).2.2
      ((includes_iff _ _).1 (by decide))).1⟩

/-! ## Dispatch: an answer whose optional fields are malformed -/

set_option maxRecDepth 100000 in
/-- C17: the gateway answers `response: "Hi"` with a `transaction_history`
that is an object, not a list.  `processVoiceQuery` appends `Hi`, raises in
`updateTransactionHistory`, and its `catch` block calls the fallback
responder: the chat gets a second bot message, the fallback sentence, and
`speakText` is called with that sentence, where the claim asks for one
message and no fallback.  The same happens for a transaction without an
amount. -/
theorem processVoiceQuery_not_a_list :
    (processVoiceQuery "hello" 0 (.response true (some notAListBody)) nehaSession).1 = .ok () ∧
    (processVoiceQuery "hello" 0 (.response true (some notAListBody)) nehaSession).2.chat
      = [⟨.bot, "Hi"⟩, ⟨.bot, defaultAnswer⟩] ∧
    (getMockResponse "hello" nehaSession).1 = .ok defaultAnswer ∧
    (processVoiceQuery "hello" 0 (.response true (some notAListBody)) nehaSession).2.trace
      = [Effect.fetchVoiceBanking ⟨"hello", some (.str "neha"), "session_0", "en"⟩,
         Effect.speakText (.str defaultAnswer) "en"] ∧
    (processVoiceQuery "hello" 0 (.response true (some noAmountBody)) nehaSession).2.chat
      = [⟨.bot, "Hi"⟩, ⟨.bot, defaultAnswer⟩] :=
  ⟨rfl, rfl, rfl, rfl, rfl⟩

/-! ## No password in the session -/

theorem lookupField_deleteField_ne (key removed : String) (h : key ≠ removed)
    (fields : List (String × JSON)) :
    lookupField key (deleteField removed fields) = lookupField key fields := by
  induction fields with
  | nil => rfl
  | cons kv rest ih =>
    obtain ⟨k, w⟩ := kv
    by_cases hk : k = removed
    · subst hk
      have hne : ¬ k = key := fun e => h e.symm
      simp [deleteField, lookupField, hne, ih]
    · by_cases hkey : k = key
      · subst hkey
        simp [deleteField, lookupField, hk]
      · simp [deleteField, lookupField, hk, hkey, ih]

theorem acceptedUser_entry {username password : String} {entry : JSON}
    (h : acceptedUser username password = some entry) :
    lookupField username users = some entry ∧
    getProp (some entry) "password" = .ok (some (.str password)) ∧
    ∃ fields, entry = .obj fields := by
  unfold acceptedUser at h
  cases hl : lookupField username users with
  | none => rw [hl] at h; exact absurd h (by simp)
  | some found =>
    rw [hl] at h
    simp only at h
    cases hp : getProp (some found) "password" with
    | error e => rw [hp] at h; exact absurd h (by simp)
    | ok value =>
      rw [hp] at h
      cases value with
      | none => exact absurd h (by simp)
      | some v =>
        cases v with
        | str stored =>
          simp only at h
          split_ifs at h with heq
          simp only [Option.some.injEq] at h
          subst h
          subst heq
          refine ⟨rfl, hp, ?_⟩
          cases found with
          | obj fields => exact ⟨fields, rfl⟩
          | null => exact absurd hp (by simp [getProp])
          | bool b => exact absurd hp (by simp [getProp])
          | num n => exact absurd hp (by simp [getProp])
          | str text => exact absurd hp (by simp [getProp])
          | arr items => exact absurd hp (by simp [getProp])
        | null => exact absurd h (by simp)
        | bool b => exact absurd h (by simp)
        | num n => exact absurd h (by simp)
        | arr items => exact absurd h (by simp)
        | obj inner => exact absurd h (by simp)

/-- C19: a login that `handleLogin` accepts stores the entry of the demo table
for the user name, with its `password` field removed and every other field as
it is in the table, in `currentUser` and in the snapshot, whose text is the
serialisation of that user and parses back to it; a login it rejects stores
nothing: `currentUser` and the session storage stay as they were. -/
theorem handleLogin_no_password (usernameInput passwordInput : String) (s : AppState) :
    ((acceptedUser (toLowerCase (trim usernameInput)) passwordInput).isSome = true →
      ∃ entry,
        lookupField (toLowerCase (trim usernameInput)) users = some entry ∧
        getProp (some entry) "password" = .ok (some (.str passwordInput)) ∧
        (handleLogin usernameInput passwordInput s).2.currentUser = deleteProp entry "password" ∧
        (∀ key, key ≠ "password" →
          getProp (some (handleLogin usernameInput passwordInput s).2.currentUser) key
            = getProp (some entry) key) ∧
        getProp (some (handleLogin usernameInput passwordInput s).2.currentUser) "password"
          = .ok none ∧
        (handleLogin usernameInput passwordInput s).2.sessionStorage.getItem "currentUser"
          = some (JSON.stringify (handleLogin usernameInput passwordInput s).2.currentUser) ∧
        JSON.parse (JSON.stringify (handleLogin usernameInput passwordInput s).2.currentUser)
          = .ok (handleLogin usernameInput passwordInput s).2.currentUser) ∧
    (acceptedUser (toLowerCase (trim usernameInput)) passwordInput = none →
      (handleLogin usernameInput passwordInput s).2.currentUser = s.currentUser ∧
      (handleLogin usernameInput passwordInput s).2.sessionStorage = s.sessionStorage) := by
  constructor
  · intro h
    obtain ⟨entry, hentry⟩ := Option.isSome_iff_exists.1 h
    have hlogin := handleLogin_accepted usernameInput passwordInput s entry hentry
    simp only [sessionOf, Prod.mk.injEq] at hlogin
    obtain ⟨_, huser, hstore⟩ := hlogin
    obtain ⟨hparse, _, _⟩ := parse_stringify_demo_profile hentry
    obtain ⟨htable, hpass, fields, hfields⟩ := acceptedUser_entry hentry
    refine ⟨entry, htable, hpass, huser, ?_, ?_, ?_, ?_⟩
    · intro key hkey
      rw [huser, hfields]
      simp only [deleteProp, getProp]
      rw [lookupField_deleteField_ne key "password" hkey]
    · rw [huser]
      rcases acceptedUser_cases hentry with ⟨_, _, hp⟩ | ⟨_, _, hp⟩ <;> rw [hp] <;> rfl
    · rw [huser, hstore, Storage.getItem_setItem_same]
    · rw [huser]
      exact hparse
  · intro h
    rw [handleLogin_rejected usernameInput passwordInput s h]
    exact ⟨rfl, rfl⟩

set_option maxRecDepth 100000 in
theorem handleLogin_no_password_witness :
    (handleLogin "Niyati" "niyati123" initialState).2.currentUser = demoProfile true ⟨87500, 0⟩ ∧
    getProp (some (handleLogin "Niyati" "niyati123" initialState).2.currentUser) "password"
      = .ok none ∧
    ((handleLogin "Niyati" "niyati123" initialState).2.sessionStorage.getItem "currentUser").map
      (fun text => (JSON.parse text).map fun user => getProp (some user) "password")
      = some (.ok (.ok none)) :=
  ⟨rfl,
   ((handleLogin_no_password "Niyati" "niyati123" initialState).1 (by decide)).elim
     fun _ h => h.2.2.2.2.1,
   rfl⟩

/-! ## Voice choice -/

theorem containsText_eq_includes (text part : String) :
    containsText text part = includes text part := by
  rw [containsText, Bool.eq_iff_iff, decide_eq_true_iff, includes_iff]

/-- C13, counterexample: for English, with only an Australian voice on offer
the scripts pick no voice where the claim picks that voice; and with a
Valencian voice named `Jordi (male)` before a British one the scripts pick
the Valencian voice, whose tag contains `en` without starting with it, where
the claim picks the British one. -/
theorem selectVoice_differs_from_claim :
    selectVoice "en" [karen] = none ∧ selectVoiceClaimed "en" [karen] = some karen ∧
    selectVoice "en" [jordi, serena] = some jordi ∧
    selectVoiceClaimed "en" [jordi, serena] = some serena ∧
    (speakText (.str "Hi") "en" { initialState with voices := [karen] }).2.spoken
      = [⟨"Hi", "en-US", none⟩] := by
  refine ⟨by decide, by decide, by decide, by decide, by decide⟩

/-- C13 (amended): for every non-empty list of voices and every language of
`en`, `hi`, `gu`, the voice `speakText` puts on the utterance is the first
voice whose language tag contains the language code and whose lower-cased name
contains one of the fragments of that language; if there is none, the first
voice whose language tag contains the language code (for English: contains
`en-US` or `en-GB`); if there is none either, no voice is set. -/
theorem speakText_voice (text lang : String) (s : AppState)
    (hlang : lang = "en" ∨ lang = "hi" ∨ lang = "gu")
    (hspeech : s.speechSynthesis = true) (hvoices : s.voices ≠ []) :
    selectVoice lang s.voices = selectVoiceAmended lang s.voices ∧
    (speakText (.str text) lang s).2.spoken
      = s.spoken ++ [⟨text, utteranceLang lang, selectVoiceAmended lang s.voices⟩] := by
  have hsel : selectVoice lang s.voices = selectVoiceAmended lang s.voices := by
    rcases hlang with h | h | h <;> subst h <;>
      simp [selectVoice, selectVoiceAmended, nameFragments, fallbackTags, nameHasFragment,
        containsText_eq_includes]
  refine ⟨hsel, ?_⟩
  have hlen : s.voices.length > 0 := List.length_pos.2 hvoices
  simp [speakText, toStringJS, hspeech, hlen, hsel]

theorem speakText_voice_witness :
    selectVoice "hi" [karen, ⟨"Hemant", "hi-IN"⟩] = selectVoiceAmended "hi" [karen, ⟨"Hemant", "hi-IN"⟩] ∧
    (speakText (.str "Namaste") "hi" { initialState with voices := [karen, ⟨"Hemant", "hi-IN"⟩] }).2.spoken
      = [] ++ [⟨"Namaste", utteranceLang "hi", selectVoiceAmended "hi" [karen, ⟨"Hemant", "hi-IN"⟩]⟩] :=
  speakText_voice "Namaste" "hi" { initialState with voices := [karen, ⟨"Hemant", "hi-IN"⟩] }
    (Or.inr (Or.inl rfl)) rfl (by decide)

/-! ## Speech capture -/

/-- C14, counterexample: a call of `toggleVoiceRecording` in the state
Listening leaves the state Idle while the recognition is still in flight, and
the call after that starts a second recognition. -/
theorem toggleVoiceRecording_while_listening :
    (toggleVoiceRecording false initialState).2.isRecording = true ∧
    (toggleVoiceRecording false initialState).2.recognitionsInFlight = 1 ∧
    (toggleVoiceRecording false (toggleVoiceRecording false initialState).2).2.isRecording
      = false ∧
    (toggleVoiceRecording false (toggleVoiceRecording false
      (toggleVoiceRecording false initialState).2).2).2.recognitionsInFlight = 2 := by
  refine ⟨by decide, by decide, by decide, by decide⟩

/-- C14 (amended): with capture as a state machine over `isRecording`, a call
of `toggleVoiceRecording` in the state Listening starts no recognition and
changes nothing but `isRecording`, which it sets to false (Idle); a call in the
state Idle on a platform with speech recognition, when the start does not
raise, sets Listening and starts exactly one recognition. -/
theorem toggleVoiceRecording_steps (startRaises : Bool) (s : AppState) :
    (s.isRecording = true →
      toggleVoiceRecording startRaises s = (.ok (), { s with isRecording := false })) ∧
    (s.isRecording = false → s.speechRecognition = true → startRaises = false →
      (toggleVoiceRecording startRaises s).2.isRecording = true ∧
      (toggleVoiceRecording startRaises s).2.recognitionsInFlight
        = s.recognitionsInFlight + 1) := by
  constructor
  · intro h
    simp [toggleVoiceRecording, h]
  · intro h hr hs
    simp [toggleVoiceRecording, h, hr, hs]

theorem toggleVoiceRecording_steps_witness :
    toggleVoiceRecording false { initialState with isRecording := true, recognitionsInFlight := 1 }
      = (.ok (), { initialState with isRecording := false, recognitionsInFlight := 1 }) ∧
    (toggleVoiceRecording false initialState).2.recognitionsInFlight = 0 + 1 :=
  ⟨(toggleVoiceRecording_steps false
      { initialState with isRecording := true, recognitionsInFlight := 1 }).1 rfl,
   ((toggleVoiceRecording_steps false initialState).2 rfl rfl rfl).2⟩

/-! ## Decimal text of a natural number -/

theorem digitChar_decimal {d : Nat} (h : d < 10) :
    (Nat.digitChar d).isDigit = true ∧ (Nat.digitChar d).toNat - 48 = d ∧
      (d ≠ 0 → Nat.digitChar d ≠ '0') := by
  have : d = 0 ∨ d = 1 ∨ d = 2 ∨ d = 3 ∨ d = 4 ∨ d = 5 ∨ d = 6 ∨ d = 7 ∨ d = 8 ∨ d = 9 := by
    omega
  rcases this with rfl | rfl | rfl | rfl | rfl | rfl | rfl | rfl | rfl | rfl <;> decide

theorem digitsValue_append (acc : Nat) (front back : List Char) :
    digitsValue acc (front ++ back) = digitsValue (digitsValue acc front) back := by
  simp [digitsValue, List.foldl_append]

theorem toDigitsCore_decimal (fuel : Nat) : ∀ (n : Nat) (acc : List Char), n < fuel →
    ∃ run : List Char, Nat.toDigitsCore 10 fuel n acc = run ++ acc ∧ run ≠ [] ∧
      (∀ c ∈ run, c.isDigit = true) ∧ (n ≠ 0 → run.head? ≠ some '0') ∧
      digitsValue 0 run = n := by
  induction fuel with
  | zero => intro n acc h; omega
  | succ fuel ih =>
    intro n acc hn
    rw [Nat.toDigitsCore]
    obtain ⟨hdigit, hvalue, hnonzero⟩ := digitChar_decimal (Nat.mod_lt n (by decide : 10 > 0))
    by_cases hsmall : n / 10 = 0
    · have hlt : n < 10 := by omega
      have hmod : n % 10 = n := Nat.mod_eq_of_lt hlt
      refine ⟨[Nat.digitChar (n % 10)], by simp [hsmall], by simp, ?_, ?_, ?_⟩
      · intro c hc
        rw [List.mem_singleton.1 hc]
        exact hdigit
      · intro hn0 hhead
        rw [hmod] at hnonzero
        simp only [List.head?_cons, Option.some.injEq] at hhead
        rw [hmod] at hhead
        exact hnonzero hn0 hhead
      · rw [hmod] at hvalue
        simp [digitsValue, hvalue, hmod]
    · obtain ⟨run, hrun, hne, hall, hhead, hval⟩ :=
        ih (n / 10) (Nat.digitChar (n % 10) :: acc) (by omega)
      refine ⟨run ++ [Nat.digitChar (n % 10)], by simp [hsmall, hrun], by simp, ?_, ?_, ?_⟩
      · intro c hc
        rcases List.mem_append.1 hc with h | h
        · exact hall c h
        · rw [List.mem_singleton.1 h]
          exact hdigit
      · intro _
        cases run with
        | nil => exact absurd rfl hne
        | cons c rest => simpa using hhead hsmall
      · rw [digitsValue_append, hval]
        simp only [digitsValue, List.foldl_cons, List.foldl_nil, hvalue]
        omega

theorem natToString_decimal (n : Nat) :
    (natToString n).data ≠ [] ∧ (∀ c ∈ (natToString n).data, c.isDigit = true) ∧
      (n ≠ 0 → (natToString n).data.head? ≠ some '0') ∧
      digitsValue 0 (natToString n).data = n := by
  obtain ⟨run, hrun, hne, hall, hhead, hval⟩ := toDigitsCore_decimal (n + 1) n [] (by omega)
  have hdata : (natToString n).data = run := by
    simp [natToString, Nat.repr, Nat.toDigits, List.asString, hrun]
  rw [hdata]
  exact ⟨hne, hall, hhead, hval⟩

theorem natToString_injective {a b : Nat} (h : natToString a = natToString b) : a = b := by
  rw [← (natToString_decimal a).2.2.2, ← (natToString_decimal b).2.2.2, h]

theorem threadId_injective {a b : Nat}
    (h : "session_" ++ natToString a = "session_" ++ natToString b) : a = b := by
  apply natToString_injective
  have hd := congrArg String.data h
  simp only [String.data_append] at hd
  exact String.ext (List.append_cancel_left hd)

/-! ## Thread identifiers -/

theorem threadIds_append (front back : List Effect) :
    threadIds (front ++ back) = threadIds front ++ threadIds back := by
  induction front with
  | nil => rfl
  | cons e rest ih => cases e <;> simp [threadIds, ih]

theorem keeps_threadIds_of_trace {α : Type} {m : JS α}
    (h : Keeps (fun s => (s.chat, s.trace, s.spoken)) m) :
    Keeps (fun s => threadIds s.trace) m := by
  intro s
  have hs := h s
  simp only [Prod.mk.injEq] at hs
  show threadIds _ = threadIds _
  rw [hs.2.1]

theorem addBotMessage_keeps_threadIds (message : JSON) :
    Keeps (fun s => threadIds s.trace) (addBotMessage message) := by
  intro s
  unfold addBotMessage
  split <;> rfl

theorem speakText_keeps_threadIds (text : JSON) (lang : String) :
    Keeps (fun s => threadIds s.trace) (speakText text lang) := by
  intro s
  unfold speakText
  repeat' first | split | simp [threadIds_append, threadIds]

theorem processVoiceQueryApply_keeps_threadIds (result : JSON) (lang : String) :
    Keeps (fun s => threadIds s.trace) (processVoiceQueryApply result lang) := by
  unfold processVoiceQueryApply
  apply Keeps.bind (Keeps.lift _ _)
  intro response
  apply Keeps.bind
  · apply whenTruthy_keeps
    intro responseText
    apply Keeps.bind (addBotMessage_keeps_threadIds _)
    intro _
    apply Keeps.bind (Keeps.lift _ _)
    intro account_balance
    apply Keeps.bind (whenTruthy_keeps _ fun b =>
      keeps_threadIds_of_trace (updateAccountBalance_keeps_chat b))
    intro _
    apply Keeps.bind (Keeps.lift _ _)
    intro transaction_history
    apply Keeps.bind (whenTruthy_keeps _ fun t =>
      keeps_threadIds_of_trace (updateTransactionHistory_keeps (some t)))
    intro _
    exact speakText_keeps_threadIds _ _
  · intro _
    exact Keeps.modify fun _ => rfl

theorem processVoiceQuerySettle_keeps_threadIds (gateway : FetchOutcome) (lang : String) :
    Keeps (fun s => threadIds s.trace) (processVoiceQuerySettle gateway lang) := by
  unfold processVoiceQuerySettle
  cases gateway with
  | rejected => exact Keeps.raise _ _
  | response ok json =>
    cases ok with
    | false => exact Keeps.raise _ _
    | true =>
      cases json with
      | none => exact Keeps.raise _ _
      | some result => exact processVoiceQueryApply_keeps_threadIds result lang

theorem processVoiceQueryCatch_keeps_threadIds (query : String) :
    Keeps (fun s => threadIds s.trace) (processVoiceQueryCatch query) := by
  unfold processVoiceQueryCatch
  apply Keeps.bind (keeps_threadIds_of_trace (getMockResponse_keeps_chat query))
  intro mockResponse
  apply Keeps.bind (addBotMessage_keeps_threadIds _)
  intro _
  apply Keeps.bind (speakText_keeps_threadIds _ _)
  intro _
  exact Keeps.modify fun _ => rfl

theorem processVoiceQueryTry_sent (query : String) (now : Nat) (gateway : FetchOutcome)
    (s : AppState) (hreq : s.isAuthenticated = true → s.currentUser ≠ .null) :
    ∃ user_id, processVoiceQueryTry query now gateway s =
      processVoiceQuerySettle gateway (if s.translationsLoaded then getCurrentLanguage s else "en")
        { s with trace := s.trace ++ [Effect.fetchVoiceBanking
          ⟨query, user_id, "session_" ++ natToString now,
            if s.translationsLoaded then getCurrentLanguage s else "en"⟩] } := by
  cases hA : s.isAuthenticated
  · refine ⟨some .null, ?_⟩
    simp [processVoiceQueryTry, JS.bind_eq, JS.pure_eq, JS.andThen, JS.get, JS.lift, JS.modify,
      JS.ret, hA]
  · obtain ⟨r, hr⟩ := getProp_user_id_ok s.currentUser (hreq hA)
    refine ⟨r, ?_⟩
    simp [processVoiceQueryTry, JS.bind_eq, JS.pure_eq, JS.andThen, JS.get, JS.lift, JS.modify,
      JS.ret, hA, hr]

theorem processVoiceQuery_threadIds (query : String) (now : Nat) (gateway : FetchOutcome)
    (s : AppState) (hreq : s.isAuthenticated = true → s.currentUser ≠ .null) :
    threadIds (processVoiceQuery query now gateway s).2.trace
      = threadIds s.trace ++ ["session_" ++ natToString now] := by
  obtain ⟨user_id, htry⟩ := processVoiceQueryTry_sent query now gateway
    { s with botStatus := "Processing..." } hreq
  have hk : Keeps (fun s => threadIds s.trace)
      (JS.tryCatch
        (processVoiceQuerySettle gateway
          (if ({ s with botStatus := "Processing..." } : AppState).translationsLoaded
            then getCurrentLanguage { s with botStatus := "Processing..." } else "en"))
        fun _ => processVoiceQueryCatch query) :=
    Keeps.tryCatch (processVoiceQuerySettle_keeps_threadIds _ _)
      fun _ => processVoiceQueryCatch_keeps_threadIds query
  have hrun : (processVoiceQuery query now gateway s).2 =
      (JS.tryCatch (processVoiceQueryTry query now gateway) (fun _ => processVoiceQueryCatch query)
        { s with botStatus := "Processing..." }).2 := rfl
  rw [hrun]
  unfold JS.tryCatch at hk ⊢
  rw [htry]
  have h := hk { s with
    botStatus := "Processing..."
    trace := s.trace ++ [Effect.fetchVoiceBanking
      ⟨query, user_id, "session_" ++ natToString now,
        if ({ s with botStatus := "Processing..." } : AppState).translationsLoaded
          then getCurrentLanguage { s with botStatus := "Processing..." } else "en"⟩] }
  simp only [threadIds_append, threadIds] at h
  exact h

set_option maxRecDepth 100000 in
/-- C15, counterexample: two dispatches of different queries, one after the
other at the clock reading 1700000000000, carry the same thread identifier. -/
theorem processVoiceQuery_same_millisecond :
    threadIds (processVoiceQuery "Recent transactions" 1700000000000 .rejected
      (processVoiceQuery "What's my balance?" 1700000000000 .rejected nehaSession).2).2.trace
      = ["session_1700000000000", "session_1700000000000"] := by
  decide

/-- C15 (amended): with the clock reading as an input of each dispatch, every
dispatch of `processVoiceQuery` that can build its request sends exactly one
thread identifier, and the identifiers of two dispatches differ exactly when
their clock readings differ; two dispatches at the same clock reading carry
the same identifier. -/
theorem processVoiceQuery_thread_ids (query1 query2 : String) (now1 now2 : Nat)
    (gateway1 gateway2 : FetchOutcome) (s1 s2 : AppState)
    (h1 : s1.isAuthenticated = true → s1.currentUser ≠ .null)
    (h2 : s2.isAuthenticated = true → s2.currentUser ≠ .null) :
    ∃ id1 id2 : String,
      threadIds (processVoiceQuery query1 now1 gateway1 s1).2.trace = threadIds s1.trace ++ [id1] ∧
      threadIds (processVoiceQuery query2 now2 gateway2 s2).2.trace = threadIds s2.trace ++ [id2] ∧
      (id1 ≠ id2 ↔ now1 ≠ now2) := by
  refine ⟨_, _, processVoiceQuery_threadIds query1 now1 gateway1 s1 h1,
    processVoiceQuery_threadIds query2 now2 gateway2 s2 h2, ?_⟩
  constructor
  · intro hne heq
    exact hne (by rw [heq])
  · intro hne heq
    exact hne (threadId_injective heq)

theorem processVoiceQuery_thread_ids_witness :
    ∃ id1 id2 : String,
      threadIds (processVoiceQuery "What's my balance?" 41 .rejected nehaSession).2.trace
        = threadIds nehaSession.trace ++ [id1] ∧
      threadIds (processVoiceQuery "What's my balance?" 42 .rejected initialState).2.trace
        = threadIds initialState.trace ++ [id2] ∧
      (id1 ≠ id2 ↔ 41 ≠ 42) :=
  processVoiceQuery_thread_ids "What's my balance?" "What's my balance?" 41 42 .rejected .rejected
    nehaSession initialState (fun _ => by simp [nehaSession, nehaProfile])
    (fun h => absurd h (by decide))

/-! ## Reading back the decimal text of a number -/

theorem readDigits_run (run rest : List Char) (acc count : Nat)
    (hrun : ∀ c ∈ run, c.isDigit = true)
    (hrest : ∀ c, rest.head? = some c → c.isDigit = false) :
    JSON.readDigits (run ++ rest) acc count = (digitsValue acc run, count + run.length, rest) := by
  induction run generalizing acc count with
  | nil =>
    cases rest with
    | nil => rfl
    | cons c tail => simp [JSON.readDigits, hrest c rfl, digitsValue]
  | cons c tail ih =>
    have hc : c.isDigit = true := hrun c (List.mem_cons_self _ _)
    rw [List.cons_append, JSON.readDigits, if_pos hc,
      ih _ _ fun d hd => hrun d (List.mem_cons_of_mem _ hd)]
    simp [digitsValue, Nat.add_assoc, Nat.add_comm 1]

theorem digitsValue_shift (acc : Nat) (run : List Char) :
    digitsValue acc run = acc * 10 ^ run.length + digitsValue 0 run := by
  induction run generalizing acc with
  | nil => simp [digitsValue]
  | cons c tail ih =>
    have h1 := ih (acc * 10 + (c.toNat - 48))
    have h2 := ih (0 * 10 + (c.toNat - 48))
    simp only [digitsValue, List.foldl_cons, List.length_cons] at h1 h2 ⊢
    rw [h1, h2, Nat.pow_succ]
    ring

theorem digitsValue_zeros (k : Nat) : digitsValue 0 (List.replicate k '0') = 0 := by
  induction k with
  | zero => rfl
  | succ k ih =>
    simp only [List.replicate_succ, digitsValue, List.foldl_cons] at ih ⊢
    exact ih

theorem isDigit_zero_char : ('0' : Char).isDigit = true := by decide

theorem readFraction_absent (rest : List Char) (h : ∀ c, rest.head? = some c → c ≠ '.') :
    JSON.readFraction rest = some (0, 0, rest) := by
  cases rest with
  | nil => rfl
  | cons c tail =>
    have hc : c ≠ '.' := h c rfl
    rw [JSON.readFraction.eq_2]
    intro cs hcs
    exact hc (List.cons.inj hcs).1

theorem readExponent_absent (rest : List Char)
    (h : ∀ c, rest.head? = some c → c ≠ 'e' ∧ c ≠ 'E') :
    JSON.readExponent rest = some (0, rest) := by
  cases rest with
  | nil => rfl
  | cons c tail =>
    obtain ⟨h1, h2⟩ := h c rfl
    rw [JSON.readExponent.eq_7]
    all_goals
      intro cs hcs
      first
        | exact h1 (List.cons.inj hcs).1
        | exact h2 (List.cons.inj hcs).1

theorem placePoint_split (digits : List Char) (m k : Nat) (hne : digits ≠ [])
    (hall : ∀ c ∈ digits, c.isDigit = true) (hhead : digits.head? ≠ some '0')
    (hval : digitsValue 0 digits = m) :
    ∃ whole frac : List Char, placePoint digits (k + 1) = whole ++ '.' :: frac ∧ whole ≠ [] ∧
      (∀ c ∈ whole, c.isDigit = true) ∧ (∀ c ∈ frac, c.isDigit = true) ∧
      frac.length = k + 1 ∧ (whole.length > 1 → whole.head? ≠ some '0') ∧
      digitsValue 0 whole * 10 ^ (k + 1) + digitsValue 0 frac = m := by
  have hpadded : ∀ c ∈ List.replicate (k + 1 + 1 - digits.length) '0' ++ digits,
      c.isDigit = true := by
    intro c hc
    rcases List.mem_append.1 hc with h | h
    · rw [(List.mem_replicate.1 h).2]
      exact isDigit_zero_char
    · exact hall c h
  have hlen : (List.replicate (k + 1 + 1 - digits.length) '0' ++ digits).length ≥ k + 2 := by
    simp only [List.length_append, List.length_replicate]
    omega
  refine ⟨(List.replicate (k + 1 + 1 - digits.length) '0' ++ digits).take
      ((List.replicate (k + 1 + 1 - digits.length) '0' ++ digits).length - (k + 1)),
    (List.replicate (k + 1 + 1 - digits.length) '0' ++ digits).drop
      ((List.replicate (k + 1 + 1 - digits.length) '0' ++ digits).length - (k + 1)),
    ?_, ?_, ?_, ?_, ?_, ?_, ?_⟩
  · simp [placePoint]
  · intro h
    have := congrArg List.length h
    simp only [List.length_take, List.length_nil] at this
    omega
  · intro c hc
    exact hpadded c (List.mem_of_mem_take hc)
  · intro c hc
    exact hpadded c (List.mem_of_mem_drop hc)
  · simp only [List.length_drop]
    omega
  · intro hlong
    simp only [List.length_take] at hlong
    have hdl : digits.length > k + 2 := by
      simp only [List.length_append, List.length_replicate] at hlong
      omega
    have hzero : k + 1 + 1 - digits.length = 0 := by omega
    rw [hzero]
    simp only [List.replicate_zero, List.nil_append]
    cases digits with
    | nil => exact absurd rfl hne
    | cons c tail =>
      simp only [List.length_cons] at hdl ⊢
      have : tail.length + 1 - (k + 1) = (tail.length - (k + 1)) + 1 := by omega
      rw [this, List.take_succ_cons]
      simpa using hhead
  · have happ := List.take_append_drop
      ((List.replicate (k + 1 + 1 - digits.length) '0' ++ digits).length - (k + 1))
      (List.replicate (k + 1 + 1 - digits.length) '0' ++ digits)
    have hv : digitsValue 0 (List.replicate (k + 1 + 1 - digits.length) '0' ++ digits) = m := by
      rw [digitsValue_append, digitsValue_zeros, hval]
    rw [← happ, digitsValue_append, digitsValue_shift] at hv
    have hfl : (List.drop ((List.replicate (k + 1 + 1 - digits.length) '0' ++ digits).length
        - (k + 1)) (List.replicate (k + 1 + 1 - digits.length) '0' ++ digits)).length = k + 1 := by
      simp only [List.length_drop]
      omega
    rw [hfl] at hv
    exact hv

theorem parseUnsigned_whole (negative : Bool) (run rest : List Char) (m : Nat)
    (hne : run ≠ []) (hall : ∀ c ∈ run, c.isDigit = true)
    (hhead : run.length > 1 → run.head? ≠ some '0') (hval : digitsValue 0 run = m)
    (hrest : EndsNumber rest) :
    JSON.parseUnsigned negative (run ++ rest)
      = some (⟨if negative then -(m : Int) else (m : Int), 0⟩, rest) := by
  have hread := readDigits_run run rest 0 0 hall fun c hc => (hrest c hc).1
  have hfrac := readFraction_absent rest fun c hc => (hrest c hc).2.1
  have hexp := readExponent_absent rest fun c hc => (hrest c hc).2.2
  cases run with
  | nil => exact absurd rfl hne
  | cons c tail =>
    have hzero : ¬ ((decide (tail.length + 1 > 1) &&
        decide ((c :: tail ++ rest).head? = some '0')) = true) := by
      by_cases hlong : (c :: tail).length > 1
      · have := hhead hlong
        simp only [List.head?_cons, ne_eq, Option.some.injEq] at this
        simp [this]
      · have ht : tail.length = 0 := by
          simp only [List.length_cons] at hlong
          omega
        simp [ht]
    unfold JSON.parseUnsigned
    rw [hread]
    simp only [List.length_cons, Nat.zero_add]
    rw [if_neg hzero, hfrac]
    simp only [hexp, hval]
    cases negative <;> simp

theorem normalize_canonical (m : Int) (k : Nat) (h : m % 10 ≠ 0) :
    JSON.normalize m (k + 1) = ⟨m, k + 1⟩ := by
  rw [JSON.normalize, if_neg h]

theorem parseUnsigned_fraction (negative : Bool) (whole frac rest : List Char) (m k : Nat)
    (hne : whole ≠ []) (hwhole : ∀ c ∈ whole, c.isDigit = true)
    (hfracDigits : ∀ c ∈ frac, c.isDigit = true) (hlen : frac.length = k + 1)
    (hhead : whole.length > 1 → whole.head? ≠ some '0')
    (hval : digitsValue 0 whole * 10 ^ (k + 1) + digitsValue 0 frac = m) (hm : m % 10 ≠ 0)
    (hrest : EndsNumber rest) :
    JSON.parseUnsigned negative (whole ++ '.' :: (frac ++ rest))
      = some (⟨if negative then -(m : Int) else (m : Int), k + 1⟩, rest) := by
  have hread := readDigits_run whole ('.' :: (frac ++ rest)) 0 0 hwhole
    fun c hc => by
      simp only [List.head?_cons, Option.some.injEq] at hc
      rw [← hc]
      decide
  have hreadFrac := readDigits_run frac rest 0 0 hfracDigits fun c hc => (hrest c hc).1
  have hexp := readExponent_absent rest fun c hc => (hrest c hc).2.2
  have hfraction : JSON.readFraction ('.' :: (frac ++ rest))
      = some (digitsValue 0 frac, k + 1, rest) := by
    rw [JSON.readFraction, hreadFrac, hlen]
    simp
  cases whole with
  | nil => exact absurd rfl hne
  | cons c tail =>
    have hzero : ¬ ((decide (tail.length + 1 > 1) &&
        decide ((c :: tail ++ '.' :: (frac ++ rest)).head? = some '0')) = true) := by
      by_cases hlong : (c :: tail).length > 1
      · have := hhead hlong
        simp only [List.head?_cons, ne_eq, Option.some.injEq] at this
        simp [this]
      · have ht : tail.length = 0 := by
          simp only [List.length_cons] at hlong
          omega
        simp [ht]
    unfold JSON.parseUnsigned
    rw [hread]
    simp only [List.length_cons, Nat.zero_add]
    rw [if_neg hzero, hfraction]
    simp only [hexp, hval]
    have hshift : ¬ (0 : Int) ≤ 0 - ((k + 1 : Nat) : Int) := by omega
    rw [if_neg hshift]
    have hk : (-(0 - ((k + 1 : Nat) : Int))).toNat = k + 1 := by omega
    rw [hk]
    cases negative
    · simp only [Bool.false_eq_true, if_false]
      rw [normalize_canonical]
      omega
    · simp only [if_true]
      rw [normalize_canonical]
      omega

theorem natToString_head (m : Nat) :
    (natToString m).data.length > 1 → (natToString m).data.head? ≠ some '0' := by
  intro hlong
  by_cases hm : m = 0
  · subst hm
    exact absurd hlong (by decide)
  · exact (natToString_decimal m).2.2.1 hm

theorem parseUnsigned_placePoint (negative : Bool) (m scale : Nat) (rest : List Char)
    (hcanon : scale = 0 ∨ m % 10 ≠ 0) (hrest : EndsNumber rest) :
    JSON.parseUnsigned negative (placePoint (natToString m).data scale ++ rest)
      = some (⟨if negative then -(m : Int) else (m : Int), scale⟩, rest) := by
  obtain ⟨hne, hall, hhead, hval⟩ := natToString_decimal m
  cases scale with
  | zero =>
    simp only [placePoint, if_true]
    exact parseUnsigned_whole negative _ rest m hne hall (natToString_head m) hval hrest
  | succ k =>
    have hm : m % 10 ≠ 0 := by
      rcases hcanon with h | h
      · omega
      · exact h
    have hm0 : m ≠ 0 := by
      intro h
      rw [h] at hm
      exact hm rfl
    obtain ⟨whole, frac, hsplit, hwne, hwhole, hfrac, hlen, hwhead, hv⟩ :=
      placePoint_split (natToString m).data m k hne hall (hhead hm0) hval
    rw [hsplit, List.append_assoc, List.cons_append]
    exact parseUnsigned_fraction negative whole frac rest m k hwne hwhole hfrac hlen hwhead hv hm
      hrest

theorem placePoint_head (m scale : Nat) (hcanon : scale = 0 ∨ m % 10 ≠ 0) :
    ∃ c tail, placePoint (natToString m).data scale = c :: tail ∧ c.isDigit = true := by
  obtain ⟨hne, hall, hhead, hval⟩ := natToString_decimal m
  cases scale with
  | zero =>
    simp only [placePoint, if_true]
    cases hd : (natToString m).data with
    | nil => exact absurd hd hne
    | cons c tail => exact ⟨c, tail, rfl, hall c (by rw [hd]; exact List.mem_cons_self _ _)⟩
  | succ k =>
    have hm0 : m ≠ 0 := by
      intro h
      subst h
      rcases hcanon with h | h
      · omega
      · exact h rfl
    obtain ⟨whole, frac, hsplit, hwne, hwhole, _⟩ :=
      placePoint_split (natToString m).data m k hne hall (hhead hm0) hval
    cases whole with
    | nil => exact absurd rfl hwne
    | cons c tail =>
      exact ⟨c, tail ++ '.' :: frac, by rw [hsplit]; rfl, hwhole c (List.mem_cons_self _ _)⟩

theorem numberToString_data (n : JSNumber) :
    (numberToString n).data =
      if n.mantissa < 0 then '-' :: placePoint (natToString n.mantissa.natAbs).data n.scale
      else placePoint (natToString n.mantissa.natAbs).data n.scale := by
  unfold numberToString
  split <;> simp [String.data_append]

theorem parseNumber_numberToString (n : JSNumber) (rest : List Char)
    (hcanon : n.isCanonical) (hrest : EndsNumber rest) :
    JSON.parseNumber ((numberToString n).data ++ rest) = some (n, rest) := by
  obtain ⟨m, scale⟩ := n
  have hnat : scale = 0 ∨ m.natAbs % 10 ≠ 0 := by
    rcases hcanon with h | h
    · exact Or.inl h
    · right
      simp only at h
      omega
  rw [numberToString_data]
  simp only
  by_cases hneg : m < 0
  · rw [if_pos hneg, List.cons_append, JSON.parseNumber,
      parseUnsigned_placePoint true m.natAbs scale rest hnat hrest]
    simp only [if_true]
    have hm : -(m.natAbs : Int) = m := by omega
    rw [hm]
  · rw [if_neg hneg]
    obtain ⟨c, tail, hc, hdigit⟩ := placePoint_head m.natAbs scale hnat
    have hunsigned := parseUnsigned_placePoint false m.natAbs scale rest hnat hrest
    rw [hc] at hunsigned ⊢
    rw [List.cons_append] at hunsigned ⊢
    rw [JSON.parseNumber.eq_2 _ (by
      intro cs hcs
      have hch : c = '-' := (List.cons.inj hcs).1
      rw [hch] at hdigit
      exact absurd hdigit (by decide)), hunsigned]
    simp only [Bool.false_eq_true, if_false]
    have hm : (m.natAbs : Int) = m := by omega
    rw [hm]

/-! ## Reading back the text of a flat object -/

theorem escapeChar_plain {c : Char} (h : PlainChar c) : escapeChar c = [c] := by
  obtain ⟨h1, h2, h3⟩ := h
  have hne : ∀ k : Nat, k < 32 → c ≠ Char.ofNat k := by
    intro k hk heq
    rw [heq] at h3
    have : (Char.ofNat k).toNat = k := by
      have hk' : k = 0 ∨ k = 1 ∨ k = 2 ∨ k = 3 ∨ k = 4 ∨ k = 5 ∨ k = 6 ∨ k = 7 ∨ k = 8 ∨ k = 9 ∨
          k = 10 ∨ k = 11 ∨ k = 12 ∨ k = 13 ∨ k = 14 ∨ k = 15 ∨ k = 16 ∨ k = 17 ∨ k = 18 ∨
          k = 19 ∨ k = 20 ∨ k = 21 ∨ k = 22 ∨ k = 23 ∨ k = 24 ∨ k = 25 ∨ k = 26 ∨ k = 27 ∨
          k = 28 ∨ k = 29 ∨ k = 30 ∨ k = 31 := by omega
      rcases hk' with rfl | rfl | rfl | rfl | rfl | rfl | rfl | rfl | rfl | rfl | rfl | rfl |
        rfl | rfl | rfl | rfl | rfl | rfl | rfl | rfl | rfl | rfl | rfl | rfl | rfl | rfl |
        rfl | rfl | rfl | rfl | rfl | rfl <;> decide
    omega
  unfold escapeChar
  rw [if_neg h1, if_neg h2, if_neg (hne 8 (by omega)), if_neg (hne 9 (by omega)),
    if_neg (hne 10 (by omega)), if_neg (hne 12 (by omega)), if_neg (hne 13 (by omega)),
    if_neg (by omega)]

theorem escapeChars_plain (cs : List Char) (h : ∀ c ∈ cs, PlainChar c) :
    escapeChars cs = cs := by
  induction cs with
  | nil => rfl
  | cons c tail ih =>
    rw [escapeChars, escapeChar_plain (h c (List.mem_cons_self _ _)),
      ih fun d hd => h d (List.mem_cons_of_mem _ hd)]
    rfl

theorem quoteString_data (s : String) (h : PlainText s) :
    (quoteString s).data = '"' :: (s.data ++ ['"']) := by
  simp [quoteString, escapeChars_plain s.data h]

theorem parseStringChars_plain (cs : List Char) (h : ∀ c ∈ cs, PlainChar c) :
    ∀ (fuel : Nat) (acc rest : List Char), cs.length < fuel →
      JSON.parseStringChars fuel (cs ++ '"' :: rest) acc = some (⟨acc.reverse ++ cs⟩, rest) := by
  induction cs with
  | nil =>
    intro fuel acc rest hf
    cases fuel with
    | zero => omega
    | succ f => simp [JSON.parseStringChars]
  | cons c tail ih =>
    intro fuel acc rest hf
    cases fuel with
    | zero => omega
    | succ f =>
      obtain ⟨h1, h2, h3⟩ := h c (List.mem_cons_self _ _)
      have hrec := ih (fun d hd => h d (List.mem_cons_of_mem _ hd)) f (c :: acc) rest
        (by simp only [List.length_cons] at hf; omega)
      rw [List.cons_append, JSON.parseStringChars]
      · rw [if_neg (by omega), hrec]
        simp
      all_goals
        intros
        first
          | exact h1 ‹_›
          | exact h2 ‹_›

theorem parseString_plain (s : String) (rest : List Char) (h : PlainText s) :
    JSON.parseString (s.data ++ '"' :: rest) = some (s, rest) := by
  unfold JSON.parseString
  rw [parseStringChars_plain s.data h _ [] rest (by rw [List.length_append]; omega)]
  rfl

theorem parseValue_str (fuel : Nat) (s : String) (rest : List Char) (h : PlainText s) :
    JSON.parseValue (fuel + 1) ((quoteString s).data ++ rest) = some (.str s, rest) := by
  rw [quoteString_data s h]
  simp [JSON.parseValue, JSON.skipSpace, JSON.isSpace, parseString_plain s rest h]

theorem numberToString_head (n : JSNumber) (hcanon : n.isCanonical) :
    ∃ c tail, (numberToString n).data = c :: tail ∧ (c = '-' ∨ c.isDigit = true) := by
  obtain ⟨m, scale⟩ := n
  have hnat : scale = 0 ∨ m.natAbs % 10 ≠ 0 := by
    rcases hcanon with h | h
    · exact Or.inl h
    · right
      have h' : m % 10 ≠ 0 := h
      omega
  rw [numberToString_data]
  by_cases hneg : m < 0
  · exact ⟨'-', placePoint (natToString m.natAbs).data scale, by simp only [hneg, if_true],
      Or.inl rfl⟩
  · obtain ⟨c, tail, hd, hc⟩ := placePoint_head m.natAbs scale hnat
    exact ⟨c, tail, by simp only [hneg, if_false]; exact hd, Or.inr hc⟩

theorem parseValue_num (fuel : Nat) (n : JSNumber) (rest : List Char)
    (hcanon : n.isCanonical) (hrest : EndsNumber rest) :
    JSON.parseValue (fuel + 1) ((numberToString n).data ++ rest) = some (.num n, rest) := by
  obtain ⟨c, tail, hdata, hc⟩ := numberToString_head n hcanon
  have hparse := parseNumber_numberToString n rest hcanon hrest
  rw [hdata] at hparse ⊢
  have hne : ∀ d : Char, d ≠ '-' → d.isDigit = false → c ≠ d := by
    intro d h1 h2 heq
    subst heq
    rcases hc with h | h
    · exact h1 h
    · rw [h2] at h
      exact Bool.noConfusion h
  have hspace : JSON.isSpace c = false := by
    simp [JSON.isSpace, hne ' ' (by decide) (by decide), hne '\t' (by decide) (by decide),
      hne '\n' (by decide) (by decide), hne '\r' (by decide) (by decide)]
  have hskip : JSON.skipSpace (c :: tail ++ rest) = c :: tail ++ rest := by
    simp [JSON.skipSpace, hspace]
  rw [JSON.parseValue, hskip]
  split
  all_goals first
    | (rw [hparse])
    | (rename_i heq
       exact absurd (List.cons.inj heq).1 (hne _ (by decide) (by decide)))

theorem parseValue_flat (fuel : Nat) (v : JSON) (rest : List Char)
    (hflat : FlatValue v) (hrest : EndsNumber rest) :
    JSON.parseValue (fuel + 1) ((JSON.stringify v).data ++ rest) = some (v, rest) := by
  cases v with
  | str s => exact parseValue_str fuel s rest hflat
  | num n => exact parseValue_num fuel n rest hflat hrest
  | null => exact absurd hflat id
  | bool b => exact absurd hflat id
  | arr items => exact absurd hflat id
  | obj fields => exact absurd hflat id

theorem stringifyFields_cons (k : String) (v : JSON) (more : List (String × JSON)) :
    (JSON.stringifyFields ((k, v) :: more)).data =
      (quoteString k).data ++ ':' :: ((JSON.stringify v).data ++
        match more with
        | [] => []
        | next :: others => ',' :: (JSON.stringifyFields (next :: others)).data) := by
  cases more with
  | nil => simp [JSON.stringifyFields, String.data_append]
  | cons next others =>
    obtain ⟨k2, v2⟩ := next
    simp [JSON.stringifyFields, String.data_append]

theorem endsNumber_of_head {c : Char} (rest : List Char)
    (h : c.isDigit = false ∧ c ≠ '.' ∧ c ≠ 'e' ∧ c ≠ 'E') : EndsNumber (c :: rest) := by
  intro d hd
  simp only [List.head?_cons, Option.some.injEq] at hd
  subst hd
  exact h

theorem parseFields_flat (fields : List (String × JSON))
    (hflat : ∀ kv ∈ fields, PlainText kv.1 ∧ FlatValue kv.2) :
    fields ≠ [] → ∀ (fuel : Nat) (rest : List Char), fields.length < fuel →
      JSON.parseFields fuel ((JSON.stringifyFields fields).data ++ '}' :: rest)
        = some (fields, rest) := by
  induction fields with
  | nil => intro h; exact absurd rfl h
  | cons kv more ih =>
    intro _ fuel rest hfuel
    obtain ⟨k, v⟩ := kv
    obtain ⟨hk, hv⟩ := hflat (k, v) (List.mem_cons_self _ _)
    have hmore : ∀ kv ∈ more, PlainText kv.1 ∧ FlatValue kv.2 :=
      fun kv h => hflat kv (List.mem_cons_of_mem _ h)
    simp only [List.length_cons] at hfuel
    obtain ⟨g, rfl⟩ : ∃ g, fuel = g + 2 := ⟨fuel - 2, by omega⟩
    rw [stringifyFields_cons, quoteString_data k hk]
    cases more with
    | nil =>
      have hval := parseValue_flat g v ('}' :: rest) hv
        (endsNumber_of_head rest (by decide))
      simp [JSON.parseFields, JSON.skipSpace, JSON.isSpace, parseString_plain k _ hk, hval]
    | cons next others =>
      have hval := parseValue_flat g v
        (',' :: ((JSON.stringifyFields (next :: others)).data ++ '}' :: rest)) hv
        (endsNumber_of_head _ (by decide))
      have hrec := ih hmore (List.cons_ne_nil _ _) (g + 1) rest
        (by simp only [List.length_cons] at hfuel ⊢; omega)
      rw [JSON.parseFields]
      simp [JSON.skipSpace, JSON.isSpace, parseString_plain k _ hk, hval, hrec]

theorem stringifyFields_length (fields : List (String × JSON)) :
    fields.length ≤ (JSON.stringifyFields fields).data.length := by
  induction fields with
  | nil => exact Nat.zero_le _
  | cons kv more ih =>
    obtain ⟨k, v⟩ := kv
    rw [stringifyFields_cons]
    cases more with
    | nil =>
      simp only [List.length_cons, List.length_append, List.length_nil]
      omega
    | cons next others =>
      simp only [List.length_cons, List.length_append] at ih ⊢
      omega

theorem parse_stringify_flat (fields : List (String × JSON)) (hne : fields ≠ [])
    (hflat : ∀ kv ∈ fields, PlainText kv.1 ∧ FlatValue kv.2)
    (hkeys : JSON.objectOf fields = .obj fields) :
    JSON.parse (JSON.stringify (.obj fields)) = .ok (.obj fields) := by
  have hdata : (JSON.stringify (.obj fields)).data
      = '{' :: ((JSON.stringifyFields fields).data ++ '}' :: []) := by
    simp [JSON.stringify, String.data_append]
  have hlen := stringifyFields_length fields
  have hfields := parseFields_flat fields hflat hne
    (2 * (JSON.stringify (.obj fields)).length + 1) []
    (by simp only [String.length, hdata, List.length_cons, List.length_append]; omega)
  obtain ⟨tail, htail⟩ : ∃ tail, (JSON.stringifyFields fields).data = '"' :: tail := by
    obtain ⟨kv, more, rfl⟩ := List.exists_cons_of_ne_nil hne
    obtain ⟨k, v⟩ := kv
    rw [stringifyFields_cons, quoteString_data k (hflat (k, v) (List.mem_cons_self _ _)).1]
    exact ⟨_, rfl⟩
  unfold JSON.parse
  rw [show 2 * (JSON.stringify (.obj fields)).length + 2
      = (2 * (JSON.stringify (.obj fields)).length + 1) + 1 from rfl, JSON.parseValue, hdata]
  rw [htail] at hfields ⊢
  rw [List.cons_append] at hfields
  simp [JSON.skipSpace, JSON.isSpace, hfields, hkeys]

/-! ## The session across sequences of calls -/

theorem plainText_of_chars (s : String)
    (h : s.data.all (fun c => decide (c ≠ '"') && decide (c ≠ '\\') && decide (32 ≤ c.toNat))
      = true) : PlainText s := by
  intro c hc
  have hcs := List.all_eq_true.1 h c hc
  simp only [Bool.and_eq_true, decide_eq_true_eq] at hcs
  exact ⟨hcs.1.1, hcs.1.2, hcs.2⟩

set_option maxRecDepth 100000 in
theorem parse_stringify_demoProfile (second : Bool) (balance : JSNumber)
    (hcanon : balance.isCanonical) :
    JSON.parse (JSON.stringify (demoProfile second balance)) = .ok (demoProfile second balance) := by
  cases second
  · refine parse_stringify_flat _ (List.cons_ne_nil _ _) ?_ rfl
    intro kv hkv
    simp only [List.mem_cons, List.mem_singleton, List.mem_nil_iff, or_false] at hkv
    rcases hkv with rfl | rfl | rfl | rfl | rfl | rfl
    all_goals first
      | exact ⟨plainText_of_chars _ rfl, plainText_of_chars _ rfl⟩
      | exact ⟨plainText_of_chars _ rfl, hcanon⟩
  · refine parse_stringify_flat _ (List.cons_ne_nil _ _) ?_ rfl
    intro kv hkv
    simp only [List.mem_cons, List.mem_singleton, List.mem_nil_iff, or_false] at hkv
    rcases hkv with rfl | rfl | rfl | rfl | rfl | rfl
    all_goals first
      | exact ⟨plainText_of_chars _ rfl, plainText_of_chars _ rfl⟩
      | exact ⟨plainText_of_chars _ rfl, hcanon⟩

theorem stringify_demoProfile_ne (second : Bool) (balance : JSNumber) :
    JSON.stringify (demoProfile second balance) ≠ "" := by
  intro h
  have hdata := congrArg String.data h
  cases second <;> simp [demoProfile, JSON.stringify, String.data_append] at hdata

theorem demoProfile_ne_null (second : Bool) (balance : JSNumber) :
    demoProfile second balance ≠ .null := by
  cases second <;> simp [demoProfile]

theorem demoProfile_setBalance (second : Bool) (balance next : JSNumber) :
    ∃ fields, demoProfile second balance = .obj fields ∧
      .obj (setField "balance" (.num next) fields) = demoProfile second next := by
  cases second
  · exact ⟨_, rfl, by simp [setField, demoProfile]⟩
  · exact ⟨_, rfl, by simp [setField, demoProfile]⟩

theorem checkAuthStatus_storage (s : AppState) :
    (checkAuthStatus s).2.sessionStorage = s.sessionStorage := by
  unfold checkAuthStatus
  cases hu : s.sessionStorage.getItem "currentUser" with
  | none => rfl
  | some text =>
    dsimp only
    split
    · cases hp : JSON.parse text with
      | error e => rfl
      | ok user =>
        have h := showDashboard_keeps_session
          { s with isAuthenticated := true, currentUser := user }
        simp only [sessionOf, Prod.mk.injEq] at h
        exact h.2.2
    · rfl

theorem updateAccountBalance_signed_out (balance : JSON) (s : AppState)
    (h : s.currentUser = .null) :
    sessionOf (updateAccountBalance balance s).2 = sessionOf s := by
  unfold updateAccountBalance sessionOf
  cases hb : s.hasBalanceElement <;> cases ht : toLocaleStringOk balance <;>
    simp [h, truthy]

theorem SessionConsistent.of_session {s t : AppState} (h : SessionConsistent s)
    (heq : sessionOf t = sessionOf s) : SessionConsistent t := by
  simp only [sessionOf, Prod.mk.injEq] at heq
  obtain ⟨h1, h2, h3⟩ := heq
  unfold SessionConsistent
  rw [h1, h2, h3]
  exact h

theorem handleLogin_consistent (usernameInput passwordInput : String) (s : AppState)
    (h : SessionConsistent s) :
    SessionConsistent (handleLogin usernameInput passwordInput s).2 := by
  cases ha : acceptedUser (toLowerCase (trim usernameInput)) passwordInput with
  | none =>
    rw [handleLogin_rejected usernameInput passwordInput s ha]
    exact h.of_session rfl
  | some entry =>
    have hlogin := handleLogin_accepted usernameInput passwordInput s entry ha
    simp only [sessionOf, Prod.mk.injEq] at hlogin
    obtain ⟨hauth, huser, hstore⟩ := hlogin
    have hprofile : ∃ second balance, JSNumber.isCanonical balance ∧
        deleteProp entry "password" = demoProfile second balance := by
      rcases acceptedUser_cases ha with ⟨_, _, hp⟩ | ⟨_, _, hp⟩
      · exact ⟨false, ⟨125000, 0⟩, Or.inl rfl, hp.trans rfl⟩
      · exact ⟨true, ⟨87500, 0⟩, Or.inl rfl, hp.trans rfl⟩
    obtain ⟨second, balance, hcanon, hp⟩ := hprofile
    right
    refine ⟨second, balance, hcanon, hauth, huser.trans hp, ?_, ?_⟩
    · rw [hstore, Storage.getItem_setItem_ne _ _ (by decide), Storage.getItem_setItem_same]
    · rw [hstore, Storage.getItem_setItem_same, hp]

theorem logout_consistent (s : AppState) : SessionConsistent (logout s).2 := by
  obtain ⟨_, hst, hauth, huser⟩ := logout_run s
  left
  refine ⟨hauth, huser, ?_, ?_⟩
  · rw [hst, Storage.getItem_removeItem_ne _ (by decide), Storage.getItem_removeItem_same]
  · rw [hst, Storage.getItem_removeItem_same]

theorem checkAuthStatus_consistent (s : AppState) (h : SessionConsistent s) :
    SessionConsistent (checkAuthStatus s).2 := by
  rcases h with ⟨hauth, huser, hflag, hdata⟩ | ⟨second, balance, hcanon, hauth, huser, hflag, hdata⟩
  · have hrun : checkAuthStatus s = (.ok (), s) := by
      unfold checkAuthStatus
      simp only [hdata]
    rw [hrun]
    exact Or.inl ⟨hauth, huser, hflag, hdata⟩
  · obtain ⟨h1, h2⟩ := checkAuthStatus_restores s _ _ hflag hdata
      (stringify_demoProfile_ne second balance) (parse_stringify_demoProfile second balance hcanon)
    right
    refine ⟨second, balance, hcanon, h1, h2, ?_, ?_⟩
    · rw [checkAuthStatus_storage]
      exact hflag
    · rw [checkAuthStatus_storage]
      exact hdata

theorem updateAccountBalance_consistent (n : JSNumber) (hn : n.isCanonical) (s : AppState)
    (h : SessionConsistent s) :
    SessionConsistent (updateAccountBalance (.num n) s).2 := by
  rcases h with ⟨hauth, huser, hflag, hdata⟩ | ⟨second, balance, hcanon, hauth, huser, hflag, hdata⟩
  · exact SessionConsistent.of_session (Or.inl ⟨hauth, huser, hflag, hdata⟩)
      (updateAccountBalance_signed_out _ s huser)
  · obtain ⟨fields, hfields, hset⟩ := demoProfile_setBalance second balance n
    obtain ⟨h1, h2, h3⟩ := updateAccountBalance_object n s fields (huser.trans hfields)
    right
    refine ⟨second, n, hn, h3.trans hauth, h1.trans hset, ?_, ?_⟩
    · rw [h2, Storage.getItem_setItem_ne _ _ (by decide)]
      exact hflag
    · rw [h2, Storage.getItem_setItem_same, hset]

theorem runCall_consistent (call : SessionCall) (hnum : call.numeric) (s : AppState)
    (h : SessionConsistent s) : SessionConsistent (runCall call s) := by
  cases call with
  | handleLogin usernameInput passwordInput =>
    exact handleLogin_consistent usernameInput passwordInput s h
  | logout => exact logout_consistent s
  | checkAuthStatus => exact checkAuthStatus_consistent s h
  | updateAccountBalance balance =>
    cases balance with
    | num n => exact updateAccountBalance_consistent n hnum s h
    | null => exact absurd hnum id
    | bool b => exact absurd hnum id
    | str text => exact absurd hnum id
    | arr items => exact absurd hnum id
    | obj fields => exact absurd hnum id

theorem runCalls_consistent (calls : List SessionCall) :
    (∀ call ∈ calls, call.numeric) → ∀ s, SessionConsistent s →
      SessionConsistent (runCalls calls s) := by
  induction calls with
  | nil => exact fun _ _ h => h
  | cons call rest ih =>
    intro hnum s h
    exact ih (fun c hc => hnum c (List.mem_cons_of_mem _ hc)) _
      (runCall_consistent call (hnum call (List.mem_cons_self _ _)) s h)

theorem SessionConsistent.facts {s : AppState} (h : SessionConsistent s) :
    (s.isAuthenticated = true ↔ s.currentUser ≠ .null) ∧
    (s.isAuthenticated = true ↔
      (s.sessionStorage.getItem "isAuthenticated" = some "true" ∧
        s.sessionStorage.getItem "currentUser" = some (JSON.stringify s.currentUser))) ∧
    (s.isAuthenticated = true → JSON.parse (JSON.stringify s.currentUser) = .ok s.currentUser) := by
  rcases h with ⟨hauth, huser, hflag, hdata⟩ | ⟨second, balance, hcanon, hauth, huser, hflag, hdata⟩
  · refine ⟨?_, ?_, ?_⟩
    · rw [hauth, huser]
      exact ⟨fun h => Bool.noConfusion h, fun h => absurd rfl h⟩
    · rw [hauth, hflag]
      exact ⟨fun h => Bool.noConfusion h, fun h => Option.noConfusion h.1⟩
    · rw [hauth]
      exact fun h => Bool.noConfusion h
  · refine ⟨?_, ?_, ?_⟩
    · rw [hauth, huser]
      exact ⟨fun _ => demoProfile_ne_null second balance, fun _ => rfl⟩
    · rw [hauth, huser]
      exact ⟨fun _ => ⟨hflag, hdata⟩, fun _ => rfl⟩
    · rw [huser]
      exact fun _ => parse_stringify_demoProfile second balance hcanon

/-- C18: from any state with `isAuthenticated = false`, `currentUser = null`
and an empty session storage, after every finite sequence of calls of
`handleLogin`, `logout`, `checkAuthStatus` and `updateAccountBalance` (the
balances passed being numbers), `isAuthenticated` is true exactly when
`currentUser` is not null, and exactly when the session storage holds the
flag `true` together with the text `JSON.stringify(currentUser)`; that text
then reads back as `currentUser`. -/
theorem session_invariant (s : AppState) (calls : List SessionCall)
    (hauth : s.isAuthenticated = false) (huser : s.currentUser = .null)
    (hstore : s.sessionStorage = []) (hnum : ∀ call ∈ calls, call.numeric) :
    ((runCalls calls s).isAuthenticated = true ↔ (runCalls calls s).currentUser ≠ .null) ∧
    ((runCalls calls s).isAuthenticated = true ↔
      ((runCalls calls s).sessionStorage.getItem "isAuthenticated" = some "true" ∧
        (runCalls calls s).sessionStorage.getItem "currentUser"
          = some (JSON.stringify (runCalls calls s).currentUser))) ∧
    ((runCalls calls s).isAuthenticated = true →
      JSON.parse (JSON.stringify (runCalls calls s).currentUser)
        = .ok (runCalls calls s).currentUser) :=
  (runCalls_consistent calls hnum s
    (Or.inl ⟨hauth, huser, by rw [hstore]; rfl, by rw [hstore]; rfl⟩)).facts

set_option maxRecDepth 100000 in
theorem session_invariant_witness :
    (∀ call ∈ [SessionCall.handleLogin "neha" "neha123",
        SessionCall.updateAccountBalance (.num demoBalance), SessionCall.checkAuthStatus],
      call.numeric) ∧
    (runCalls [SessionCall.handleLogin "neha" "neha123",
        SessionCall.updateAccountBalance (.num demoBalance), SessionCall.checkAuthStatus]
      initialState).isAuthenticated = true ∧
    (runCalls [SessionCall.handleLogin "neha" "neha123",
        SessionCall.updateAccountBalance (.num demoBalance), SessionCall.checkAuthStatus]
      initialState).currentUser = demoProfile false demoBalance ∧
    (runCalls [SessionCall.handleLogin "neha" "neha123",
        SessionCall.updateAccountBalance (.num demoBalance), SessionCall.checkAuthStatus]
      initialState).sessionStorage.getItem "currentUser"
        = some (JSON.stringify (demoProfile false demoBalance)) :=
  have hnum : ∀ call ∈ [SessionCall.handleLogin "neha" "neha123",
      SessionCall.updateAccountBalance (.num demoBalance), SessionCall.checkAuthStatus],
      call.numeric := by
    intro call hcall
    simp only [List.mem_cons, List.mem_singleton, List.mem_nil_iff, or_false] at hcall
    rcases hcall with rfl | rfl | rfl
    · exact True.intro
    · exact Or.inr (by decide)
    · exact True.intro
  have hauth : (runCalls [SessionCall.handleLogin "neha" "neha123",
      SessionCall.updateAccountBalance (.num demoBalance), SessionCall.checkAuthStatus]
      initialState).isAuthenticated = true := rfl
  have huser : (runCalls [SessionCall.handleLogin "neha" "neha123",
      SessionCall.updateAccountBalance (.num demoBalance), SessionCall.checkAuthStatus]
      initialState).currentUser = demoProfile false demoBalance := rfl
  ⟨hnum, hauth, huser,
    (((session_invariant initialState _ rfl rfl rfl hnum).2.1.1 hauth).2).trans
      (congrArg (fun user => some (JSON.stringify user)) huser)⟩

/-! ## Restoring a snapshot -/

theorem isOptionalText_cases {v : Option JSON} (h : isOptionalText v = true) :
    v = none ∨ ∃ text, v = some (.str text) := by
  cases v with
  | none => exact Or.inl rfl
  | some value =>
    cases value with
    | str text => exact Or.inr ⟨text, rfl⟩
    | null => exact absurd h (by simp [isOptionalText])
    | bool b => exact absurd h (by simp [isOptionalText])
    | num n => exact absurd h (by simp [isOptionalText])
    | arr items => exact absurd h (by simp [isOptionalText])
    | obj fields => exact absurd h (by simp [isOptionalText])

theorem showDashboard_profile (s : AppState) (hprofile : isUserProfile s.currentUser = true)
    (hpage : s.hasBalanceElement = true) : (showDashboard s).1 = .ok () := by
  cases hu : s.currentUser with
  | obj fields =>
    rw [hu] at hprofile
    simp only [isUserProfile, Bool.and_eq_true] at hprofile
    obtain ⟨⟨⟨hid, hname⟩, hacct⟩, hbal⟩ := hprofile
    obtain ⟨n, hb⟩ : ∃ n, lookupField "balance" fields = some (.num n) := by
      cases hb : lookupField "balance" fields with
      | none => rw [hb] at hbal; exact absurd hbal (by simp)
      | some value =>
        rw [hb] at hbal
        cases value with
        | num n => exact ⟨n, rfl⟩
        | null => exact absurd hbal (by simp)
        | bool b => exact absurd hbal (by simp)
        | str text => exact absurd hbal (by simp)
        | arr items => exact absurd hbal (by simp)
        | obj inner => exact absurd hbal (by simp)
    rcases isOptionalText_cases hid with hi | ⟨id, hi⟩ <;>
      rcases isOptionalText_cases hname with hn | ⟨name, hn⟩ <;>
      rcases isOptionalText_cases hacct with ha | ⟨account, ha⟩ <;>
      cases hacc : s.hasAccountNumberElement <;>
      simp [showDashboard, loadUserTransactions, hu, truthy, getProp, hi, hn, ha, hb, hpage, hacc,
        interpolate, toStringJS, toLocaleStringOk, lastFourOk, Except.bind]
  | null => rw [hu] at hprofile; exact absurd hprofile (by simp [isUserProfile])
  | bool b => rw [hu] at hprofile; exact absurd hprofile (by simp [isUserProfile])
  | num n => rw [hu] at hprofile; exact absurd hprofile (by simp [isUserProfile])
  | str text => rw [hu] at hprofile; exact absurd hprofile (by simp [isUserProfile])
  | arr items => rw [hu] at hprofile; exact absurd hprofile (by simp [isUserProfile])

set_option maxRecDepth 100000 in
/-- C6, counterexample: with the flag set and the user entry `{oops`,
`checkAuthStatus` raises a SyntaxError and leaves `isAuthenticated` true with
no user; with the flag set and the user entry `{}`, which parses, it raises a
TypeError while it shows the dashboard. -/
theorem checkAuthStatus_broken_snapshot :
    (checkAuthStatus { initialState with sessionStorage := brokenSnapshot }).1
      = .error .syntaxError ∧
    (checkAuthStatus { initialState with sessionStorage := brokenSnapshot }).2.isAuthenticated
      = true ∧
    (checkAuthStatus { initialState with sessionStorage := brokenSnapshot }).2.currentUser
      = .null ∧
    JSON.parse "\x7b\x7d" = .ok (.obj []) ∧
    (checkAuthStatus { initialState with sessionStorage := emptyProfileSnapshot }).1
      = .error .typeError :=
  ⟨rfl, rfl, rfl, rfl, rfl⟩

/-- C6 (amended): when the flag is not `true`, or the user entry is absent or
empty, `checkAuthStatus` returns normally and leaves the state as it was.
When the flag is `true` and the user entry parses, it sets `isAuthenticated`,
makes the parsed value the current user, keeps the snapshot and shows the
dashboard for that user; it returns normally when the value is falsy (such as
`null`), and when it is a user profile and the page has its balance element.
When the flag is `true` and the user entry is non-empty text that `JSON.parse`
refuses, it raises that parse error and assigns no user. -/
theorem checkAuthStatus_snapshot (s : AppState) :
    ((s.sessionStorage.getItem "isAuthenticated" ≠ some "true" ∨
        s.sessionStorage.getItem "currentUser" = none ∨
        s.sessionStorage.getItem "currentUser" = some "") →
      checkAuthStatus s = (.ok (), s)) ∧
    (∀ (text : String) (user : JSON),
      s.sessionStorage.getItem "isAuthenticated" = some "true" →
      s.sessionStorage.getItem "currentUser" = some text → text ≠ "" →
      JSON.parse text = .ok user →
      checkAuthStatus s = showDashboard { s with isAuthenticated := true, currentUser := user } ∧
      (checkAuthStatus s).2.isAuthenticated = true ∧
      (checkAuthStatus s).2.currentUser = user ∧
      (checkAuthStatus s).2.sessionStorage = s.sessionStorage ∧
      (truthy (some user) = false → (checkAuthStatus s).1 = .ok ()) ∧
      (isUserProfile user = true → s.hasBalanceElement = true →
        (checkAuthStatus s).1 = .ok ())) ∧
    (∀ (text : String) (e : JSError),
      s.sessionStorage.getItem "isAuthenticated" = some "true" →
      s.sessionStorage.getItem "currentUser" = some text → text ≠ "" →
      JSON.parse text = .error e →
      (checkAuthStatus s).1 = .error e ∧ (checkAuthStatus s).2.currentUser = s.currentUser ∧
      (checkAuthStatus s).2.sessionStorage = s.sessionStorage) := by
  refine ⟨?_, ?_, ?_⟩
  · intro h
    unfold checkAuthStatus
    rcases h with h | h | h
    · cases hu : s.sessionStorage.getItem "currentUser" <;> simp [h]
    · simp [h]
    · simp [h]
  · intro text user hflag huser hne hparse
    have hrun : checkAuthStatus s
        = showDashboard { s with isAuthenticated := true, currentUser := user } := by
      unfold checkAuthStatus
      simp only [huser, hflag, hne, hparse, ne_eq, not_false_eq_true, and_self, if_true]
    obtain ⟨hauth, hcur⟩ := checkAuthStatus_restores s text user hflag huser hne hparse
    refine ⟨hrun, hauth, hcur, checkAuthStatus_storage s, ?_, ?_⟩
    · intro hfalsy
      rw [hrun]
      unfold showDashboard
      simp [hfalsy]
    · intro hprofile hpage
      rw [hrun]
      exact showDashboard_profile _ hprofile hpage
  · intro text e hflag huser hne hparse
    refine ⟨?_, ?_, checkAuthStatus_storage s⟩
    · unfold checkAuthStatus
      simp only [huser, hflag, hne, hparse, ne_eq, not_false_eq_true, and_self, if_true]
    · unfold checkAuthStatus
      simp only [huser, hflag, hne, hparse, ne_eq, not_false_eq_true, and_self, if_true]

set_option maxRecDepth 100000 in
theorem checkAuthStatus_snapshot_witness :
    checkAuthStatus { initialState with sessionStorage := [("currentUser", "\x7boops")] }
      = (.ok (), { initialState with sessionStorage := [("currentUser", "\x7boops")] }) ∧
    ((checkAuthStatus { initialState with sessionStorage := nehaSession.sessionStorage }).1
        = .ok () ∧
      (checkAuthStatus { initialState with sessionStorage := nehaSession.sessionStorage }).2.currentUser
        = nehaProfile) ∧
    (checkAuthStatus { initialState with sessionStorage := loneSurrogateSnapshot }).1 = .ok () ∧
    ((checkAuthStatus { initialState with sessionStorage := brokenSnapshot }).1
        = .error .syntaxError ∧
      (checkAuthStatus { initialState with sessionStorage := brokenSnapshot }).2.currentUser
        = .null) :=
  ⟨(checkAuthStatus_snapshot
      { initialState with sessionStorage := [("currentUser", "\x7boops")] }).1
      (Or.inl (by decide)),
   ⟨((checkAuthStatus_snapshot { initialState with sessionStorage := nehaSession.sessionStorage }).2.1
        (JSON.stringify nehaProfile) nehaProfile rfl rfl (by decide) rfl).2.2.2.2.2 rfl rfl,
    ((checkAuthStatus_snapshot { initialState with sessionStorage := nehaSession.sessionStorage }).2.1
        (JSON.stringify nehaProfile) nehaProfile rfl rfl (by decide) rfl).2.2.1⟩,
   ((checkAuthStatus_snapshot { initialState with sessionStorage := loneSurrogateSnapshot }).2.1
      "\x7b\"name\":\"\\ud83d\",\"balance\":5\x7d"
      (.obj [("name", .str ⟨[JSON.loneSurrogate]⟩), ("balance", .num ⟨5, 0⟩)])
      rfl rfl (by decide) rfl).2.2.2.2.2 rfl rfl,
   ⟨((checkAuthStatus_snapshot { initialState with sessionStorage := brokenSnapshot }).2.2
      "\x7boops" .syntaxError rfl rfl (by decide) rfl).1,
    ((checkAuthStatus_snapshot { initialState with sessionStorage := brokenSnapshot }).2.2
      "\x7boops" .syntaxError rfl rfl (by decide) rfl).2.1⟩⟩

end NextGenBanking
